import Mathlib

/-!
# RTMSDF bitmap importer: a verification development

A shallow embedding of `Source/RTMSDFEditor/Private/Importer/Bitmap/RTMSDF_BitmapFactory.cpp`.

Conventions of the embedding

* C++ `int` is `Int`; the index arithmetic of the importer is assumed to stay inside the
  32-bit range, so no wrap-around is modelled.
* `uint8` is `Fin 256`.
* `float` is `ℚ`: arithmetic is exact, and the rounding of binary32 is not modelled.  The one
  irrational operation, `FMath::Sqrt`, only feeds the quantisation at the end of
  `CreateDistanceField`; see `QuantizeLevel`.  A statement that rests on the exact value of a
  quotient, a product or a square root is a statement of exact arithmetic, and says so.
* A raw pointer (`uint8*`, `float*`) is a total map from offsets to cells (`Int → _`); a
  store is a point update of that map.
* `ParallelFor (n, body)` is the sequential loop over `0, 1, .., n-1`.  `CreateDistanceField`
  is called with an output buffer of its own (`CreateDistanceField`) and with the source buffer
  as the output buffer (`CreateDistanceFieldInPlace`).
-/

namespace RTMSDF

/-! ## Data model -/

/-- Modelled from the spec: the engine enumeration of texture source formats is not part of
the repository sources.  The tags that `GetTextureFormat` names are constructors, every
other tag of the engine is `TSF_Other` with its numeric value. -/
inductive ETextureSourceFormat where
  | TSF_G8
  | TSF_BGRA8
  | TSF_BGRE8
  | TSF_RGBA16
  | TSF_RGBA16F
  | TSF_G16
  | TSF_Other (tag : Nat)
  deriving DecidableEq

/-- Modelled from the spec: the channel roles (`ERTMSDF_Channels`); the header of the plugin
that declares them is not modelled, the four roles are the ones the importer uses. -/
inductive ERTMSDF_Channels where
  | Red
  | Green
  | Blue
  | Alpha
  deriving DecidableEq

/-- The value of `FLT_MAX`, `(2 - 2^(-23)) * 2^127`. -/
def FLT_MAX : ℚ := 340282346638528859811704183484516925440

/-- A two-dimensional vector of floats. -/
structure FVector2DFloatType where
  X : ℚ
  Y : ℚ
  deriving DecidableEq

/-- A byte buffer behind a `uint8*`. -/
abbrev PixelBuffer := Int → Fin 256

/-- A float buffer behind a `float*`. -/
abbrev FloatBuffer := Int → ℚ

/-- The store `buffer[idx] = value`. -/
def store {α : Type} (buffer : Int → α) (idx : Int) (value : α) : Int → α :=
  fun j => if j = idx then value else buffer j

/-! ## Channel classifier -/

/-- The function `URTMSDF_BitmapFactory::GetTextureFormat`: the returned flag and the role
list after the call.  The roles are appended to the list that is passed in. -/
def GetTextureFormat (format : ETextureSourceFormat) (channelPositions : List ERTMSDF_Channels) :
    Bool × List ERTMSDF_Channels :=
  match format with
  | .TSF_G8 => (true, channelPositions ++ [ERTMSDF_Channels.Alpha])
  | .TSF_BGRA8 | .TSF_BGRE8 =>
    (true, channelPositions ++
      [ERTMSDF_Channels.Blue, ERTMSDF_Channels.Green, ERTMSDF_Channels.Red, ERTMSDF_Channels.Alpha])
  | .TSF_RGBA16 | .TSF_RGBA16F | .TSF_G16 => (false, channelPositions)
  | _ => (false, channelPositions)

/-! ## Engine helpers

The functions of `FMath` and the vector operators are engine code; they are given here with
their documented meaning. -/

namespace FMath

/-- The function `FMath::Clamp (x, lo, hi)`, which is `Max (Min (x, hi), lo)`. -/
def Clamp {α : Type} [LinearOrder α] (x lo hi : α) : α := max (min x hi) lo

/-- The function `FMath::FloorToInt`. -/
def FloorToInt (x : ℚ) : Int := ⌊x⌋

/-- The function `FMath::RoundToInt`, which is `FloorToInt (x + 0.5f)`. -/
def RoundToInt (x : ℚ) : Int := FloorToInt (x + 1 / 2)

end FMath

/-- The conversion `static_cast<uint8>` of an `int`. -/
def toUInt8 (n : Int) : Fin 256 :=
  ⟨(n % 256).toNat, by
    have h1 : 0 ≤ n % 256 := Int.emod_nonneg n (by decide)
    have h2 : n % 256 < 256 := Int.emod_lt_of_pos n (by decide)
    omega⟩

namespace FVector2DFloatType

instance : Inhabited FVector2DFloatType := ⟨⟨0, 0⟩⟩

/-- The vector with both components read from integers. -/
def ofInts (x y : Int) : FVector2DFloatType := ⟨(x : ℚ), (y : ℚ)⟩

/-- Component-wise sum, `a + b`. -/
def add (a b : FVector2DFloatType) : FVector2DFloatType := ⟨a.X + b.X, a.Y + b.Y⟩

/-- Component-wise difference, `a - b`. -/
def sub (a b : FVector2DFloatType) : FVector2DFloatType := ⟨a.X - b.X, a.Y - b.Y⟩

/-- Component-wise product, `a * b`. -/
def mul (a b : FVector2DFloatType) : FVector2DFloatType := ⟨a.X * b.X, a.Y * b.Y⟩

/-- The scalar subtracted from both components, `a - s`. -/
def subScalar (a : FVector2DFloatType) (s : ℚ) : FVector2DFloatType := ⟨a.X - s, a.Y - s⟩

/-- Both components divided by the scalar, `a / s`. -/
def divScalar (a : FVector2DFloatType) (s : ℚ) : FVector2DFloatType := ⟨a.X / s, a.Y / s⟩

/-- Both components multiplied by the scalar, `a * s`. -/
def mulScalar (a : FVector2DFloatType) (s : ℚ) : FVector2DFloatType := ⟨a.X * s, a.Y * s⟩

/-- The dot product, `a | b`. -/
def dot (a b : FVector2DFloatType) : ℚ := a.X * b.X + a.Y * b.Y

/-- The larger of the absolute values of the components, `GetAbsMax`. -/
def GetAbsMax (a : FVector2DFloatType) : ℚ := max |a.X| |a.Y|

/-- The squared Euclidean distance, `DistSquared`. -/
def DistSquared (a b : FVector2DFloatType) : ℚ :=
  (b.X - a.X) * (b.X - a.X) + (b.Y - a.Y) * (b.Y - a.Y)

end FVector2DFloatType

/-! ## Segment distance (`RTM::SDF::BitmapFactoryStatics`) -/

/-- The function `ClosestPointOnSegment2D`, copied by the source from the engine for
floats. -/
def ClosestPointOnSegment2D (point startPoint endPoint : FVector2DFloatType) :
    FVector2DFloatType :=
  let segment := endPoint.sub startPoint
  let vectToPoint := point.sub startPoint
  let dot1 := vectToPoint.dot segment
  if dot1 ≤ 0 then startPoint
  else
    let dot2 := segment.dot segment
    if dot2 ≤ dot1 then endPoint
    else startPoint.add (segment.mulScalar (dot1 / dot2))

/-- The function `EdgeTest`: the value of `currDistSq` after the call. -/
def EdgeTest (edgeStart edgeEnd iPos : FVector2DFloatType) (currDistSq : ℚ) : ℚ :=
  let closest := ClosestPointOnSegment2D iPos edgeStart edgeEnd
  let distSq := FVector2DFloatType.DistSquared iPos closest
  if distSq < currDistSq then distSq else currDistSq

/-! ## Intersection detector -/

/-- The state that the loops of `FindIntersections` thread through: the output buffer and the
counter `numFound`. -/
structure IntersectionState where
  outIntersectionBuffer : FloatBuffer
  numFound : Nat

/-- The body of the inner loop of `FindIntersections`, at cell `(eX, eY)`.  The two quotients
are exact; the source holds their rounding to binary32. -/
def FindIntersectionsCell (width : Int) (pixels : PixelBuffer) (pixelWidth channelOffset : Int)
    (eY eX : Int) (st : IntersectionState) : IntersectionState :=
  let intersectionMapWidth := width - 1
  let mipIdx := eY * width + eX
  let currPix := pixels (mipIdx * pixelWidth + channelOffset)
  let xPix := pixels ((mipIdx + 1) * pixelWidth + channelOffset)
  let yPix := pixels ((mipIdx + width) * pixelWidth + channelOffset)
  let numerator : ℚ := ((127 - (currPix.val : Int) : Int) : ℚ)
  let denominatorX : ℚ := (((xPix.val : Int) - (currPix.val : Int) : Int) : ℚ)
  let denominatorY : ℚ := (((yPix.val : Int) - (currPix.val : Int) : Int) : ℚ)
  let intersectionTopIdx := (eY * intersectionMapWidth + eX) * 2
  let intersectionLeftIdx := intersectionTopIdx + 1
  let intersectionTop := if denominatorX ≠ 0 then numerator / denominatorX else -FLT_MAX
  let intersectionLeft := if denominatorY ≠ 0 then numerator / denominatorY else -FLT_MAX
  let out1 := store st.outIntersectionBuffer intersectionTopIdx
    (if intersectionTop > 1 then -FLT_MAX else intersectionTop)
  let out2 := store out1 intersectionLeftIdx
    (if intersectionLeft > 1 then -FLT_MAX else intersectionLeft)
  let n1 := if out2 intersectionTopIdx ≥ 0 then st.numFound + 1 else st.numFound
  let n2 := if out2 intersectionLeftIdx ≥ 0 then n1 + 1 else n1
  ⟨out2, n2⟩

/-- What `FindIntersections` hands back: the returned flag, the buffer it filled and
`outNumIntersections`. -/
structure IntersectionResult where
  found : Bool
  outIntersectionBuffer : FloatBuffer
  outNumIntersections : Nat

/-- The function `URTMSDF_BitmapFactory::FindIntersections`.  The rows are taken in order;
the counter is a natural number. -/
def FindIntersections (width height : Int) (pixels : PixelBuffer) (pixelWidth channelOffset : Int)
    (outIntersectionBuffer : FloatBuffer) : IntersectionResult :=
  let intersectionMapWidth := width - 1
  let intersectionMapHeight := height - 1
  let st := (List.range intersectionMapHeight.toNat).foldl
    (fun st (eY : Nat) => (List.range intersectionMapWidth.toNat).foldl
      (fun st (eX : Nat) =>
        FindIntersectionsCell width pixels pixelWidth channelOffset (eY : Int) (eX : Int) st) st)
    (IntersectionState.mk outIntersectionBuffer 0)
  ⟨decide (st.numFound > 1), st.outIntersectionBuffer, st.numFound⟩

/-! ## Edge extractor -/

/-- The local array `intersections` that `FindEdges` gathers for cell `(x, y)`. -/
def CellIntersections (intersectionMapHeight intersectionMapWidth : Int)
    (intersectionMap : FloatBuffer) (y x : Int) : List FVector2DFloatType :=
  let currIdx := (y * intersectionMapWidth + x) * 2
  let nextColIdxUnsafe := (y * intersectionMapWidth + (x + 1)) * 2
  let nextRowIdxUnsafe := ((y + 1) * intersectionMapWidth + x) * 2
  let topIntersection := intersectionMap currIdx
  let leftIntersection := intersectionMap (currIdx + 1)
  let rightIntersection :=
    if x < intersectionMapWidth - 1 then intersectionMap (nextColIdxUnsafe + 1) else -1
  let bottomIntersection :=
    if y < intersectionMapHeight - 1 then intersectionMap nextRowIdxUnsafe else -1
  let i0 : List FVector2DFloatType := []
  let i1 := if topIntersection ≥ 0 then i0 ++ [⟨x + topIntersection, y⟩] else i0
  let i2 := if bottomIntersection ≥ 0 then i1 ++ [⟨x + bottomIntersection, y + 1⟩] else i1
  let i3 := if leftIntersection > 0 ∧ leftIntersection < 1
    then i2 ++ [⟨x, y + leftIntersection⟩] else i2
  let i4 := if rightIntersection > 0 ∧ rightIntersection < 1
    then i3 ++ [⟨x + 1, y + rightIntersection⟩] else i3
  i4

/-- The tail of the loop body of `FindEdges`: the points that a cell with the gathered
`intersections` adds to the edge buffer. -/
def CellEdges (intersections : List FVector2DFloatType) : List FVector2DFloatType :=
  let numPoints := intersections.length
  let e1 := if numPoints ≥ 2 then [intersections.getD 0 default, intersections.getD 1 default]
    else []
  let e2 := if numPoints = 4 then e1 ++ [intersections.getD 2 default, intersections.getD 3 default]
    else e1
  e2

/-- The function `URTMSDF_BitmapFactory::FindEdges`: the returned flag and the edge buffer,
which is reset on entry. -/
def FindEdges (intersectionMapHeight intersectionMapWidth : Int) (intersectionMap : FloatBuffer) :
    Bool × List FVector2DFloatType :=
  let edgeBuffer := (List.range intersectionMapHeight.toNat).foldl
    (fun buf (y : Nat) => (List.range intersectionMapWidth.toNat).foldl
      (fun buf (x : Nat) => buf ++ CellEdges
        (CellIntersections intersectionMapHeight intersectionMapWidth intersectionMap
          (y : Int) (x : Int))) buf)
    ([] : List FVector2DFloatType)
  (decide (edgeBuffer.length > 0), edgeBuffer)

/-! ## Coordinate map and bilinear sampler -/

/-- The function `URTMSDF_BitmapFactory::TransformPos`. -/
def TransformPos (fromWidth fromHeight toWidth toHeight : ℚ) (fromVec : FVector2DFloatType) :
    FVector2DFloatType :=
  let toCenter := ((FVector2DFloatType.mk toWidth toHeight).subScalar 1).divScalar 2
  let fromCenter := ((FVector2DFloatType.mk fromWidth fromHeight).subScalar 1).divScalar 2
  let fromPos := fromVec.sub fromCenter
  let toPos := fromPos.mul ⟨toWidth / fromWidth, toHeight / fromHeight⟩
  toCenter.add toPos

/-- The position after the clamp at the head of `ComputePixelValue`.  Both axes are clamped
with `width`, as in the source. -/
def ClampedPos (pos : FVector2DFloatType) (width : Int) : FVector2DFloatType :=
  ⟨FMath.Clamp pos.X 0 ((width : ℚ) - 1), FMath.Clamp pos.Y 0 ((width : ℚ) - 1)⟩

/-- The function `URTMSDF_BitmapFactory::ComputePixelValue`. -/
def ComputePixelValue (pos : FVector2DFloatType) (width height : Int) (buffer : PixelBuffer)
    (pixelWidth channelOffset : Int) : Fin 256 :=
  let index := fun (x y : Int) => (y * width + x) * pixelWidth + channelOffset
  let pos := ClampedPos pos width
  let top := FMath.FloorToInt pos.Y
  let left := FMath.FloorToInt pos.X
  let bottom := min (top + 1) (height - 1)
  let right := min (left + 1) (width - 1)
  let bottomWeight : ℚ := pos.Y - top
  let rightWeight : ℚ := pos.X - left
  let lt := buffer (index left top)
  let rt := buffer (index right top)
  let lb := buffer (index left bottom)
  let rb := buffer (index right bottom)
  let topVal : ℚ := lt.val * (1 - rightWeight) + rt.val * rightWeight
  let bottomVal : ℚ := lb.val * (1 - rightWeight) + rb.val * rightWeight
  toUInt8 (FMath.RoundToInt (topVal * (1 - bottomWeight) + bottomVal * bottomWeight))

/-- The column `left` of `ComputePixelValue`: the floor of the clamped `X`. -/
def SampleLeft (pos : FVector2DFloatType) (width : Int) : Int :=
  FMath.FloorToInt (ClampedPos pos width).X

/-- The row `top` of `ComputePixelValue`: the floor of the clamped `Y`. -/
def SampleTop (pos : FVector2DFloatType) (width : Int) : Int :=
  FMath.FloorToInt (ClampedPos pos width).Y

/-- The column `right` of `ComputePixelValue`, `Min (left + 1, width - 1)`. -/
def SampleRight (pos : FVector2DFloatType) (width : Int) : Int :=
  min (SampleLeft pos width + 1) (width - 1)

/-- The row `bottom` of `ComputePixelValue`, `Min (top + 1, height - 1)`. -/
def SampleBottom (pos : FVector2DFloatType) (width height : Int) : Int :=
  min (SampleTop pos width + 1) (height - 1)

/-! ## Distance field renderer -/

/-- The loop over the edge buffer in `CreateDistanceField`, which takes the points two by two
and leaves `currDistSq` as it is for a segment that fails the bounding-box test.  `FindEdges`
only builds buffers of even length; a last unpaired point is not read. -/
def EdgeLoop (sourcePos : FVector2DFloatType) (halfFieldDistance : ℚ) :
    List FVector2DFloatType → ℚ → ℚ
  | edgeStart :: edgeEnd :: rest, currDistSq =>
    EdgeLoop sourcePos halfFieldDistance rest
      (if (sourcePos.sub edgeStart).GetAbsMax ≤ halfFieldDistance ∧
          (sourcePos.sub edgeEnd).GetAbsMax ≤ halfFieldDistance
        then EdgeTest edgeStart edgeEnd sourcePos currDistSq else currDistSq)
  | _, currDistSq => currDistSq

/-- Whether `a ≤ √r` (for `positive`) or `a ≤ -√r` (otherwise), decided by comparing squares;
`r` is not negative. -/
def SqrtReaches (positive : Bool) (r a : ℚ) : Bool :=
  if positive then decide (a ≤ 0 ∨ a * a ≤ r) else decide (a ≤ 0 ∧ r ≤ a * a)

/-- The largest `k` with `1 ≤ k ≤ n` and `p k`, and `0` when there is none. -/
def LargestUpTo (p : Nat → Bool) : Nat → Nat
  | 0 => 0
  | n + 1 => if p (n + 1) then n + 1 else LargestUpTo p n

/-- The last four lines of the loop body of `CreateDistanceField` up to the final store:
`dist = Sqrt (currDistSq)`, `signedDist = positive ? dist : -dist`,
`distN = signedDist / fieldDistance + 0.5f` and
`Clamp (FloorToInt (distN * 255.0f), 0, 255)`.
The square root has no rational value, so the level is found as the largest `n ≤ 255` with
`n ≤ distN * 255`, a comparison that is settled on the squares; `quantizeLevel_real` shows
that this is the value of the source expression over the reals. -/
def QuantizeLevel (currDistSq : ℚ) (positive : Bool) (fieldDistance : ℚ) : Int :=
  let r := currDistSq / (fieldDistance * fieldDistance)
  let up := xor positive (decide (fieldDistance < 0))
  (LargestUpTo (fun n => SqrtReaches up r ((n : ℚ) / 255 - 1 / 2)) 255 : Nat)

/-- The source-space position of output pixel `i`: `sdfPos (i % sdfWidth, i / sdfWidth)` sent
through `TransformPos`. -/
def SourcePos (sourceWidth sourceHeight sdfWidth sdfHeight i : Int) : FVector2DFloatType :=
  let sdfPos := FVector2DFloatType.ofInts (i.tmod sdfWidth) (i.tdiv sdfWidth)
  TransformPos sdfWidth sdfHeight sourceWidth sourceHeight sdfPos

/-- The value of `currDistSq` at the end of the edge loop for output pixel `i`. -/
def PixelDistSq (sourceWidth sourceHeight sdfWidth sdfHeight : Int) (fieldDistance : ℚ)
    (edgeBuffer : List FVector2DFloatType) (i : Int) : ℚ :=
  let halfFieldDistance := fieldDistance * (1 / 2)
  let sourcePos := SourcePos sourceWidth sourceHeight sdfWidth sdfHeight i
  EdgeLoop sourcePos halfFieldDistance edgeBuffer (halfFieldDistance * halfFieldDistance)

/-- The flag `outside` for output pixel `i`. -/
def PixelOutside (sourceWidth sourceHeight sdfWidth sdfHeight : Int) (pixels : PixelBuffer)
    (pixelWidth channelOffset i : Int) : Bool :=
  let sourcePos := SourcePos sourceWidth sourceHeight sdfWidth sdfHeight i
  let mipVal8 := ComputePixelValue sourcePos sourceWidth sourceHeight pixels pixelWidth channelOffset
  decide (mipVal8.val < 127)

/-- The body of the parallel loop of `CreateDistanceField`: the byte `sdfMip` of output
pixel `i`. -/
def SdfMip (sourceWidth sourceHeight sdfWidth sdfHeight : Int) (pixels : PixelBuffer)
    (pixelWidth channelOffset : Int) (fieldDistance : ℚ) (invertDistance : Bool)
    (edgeBuffer : List FVector2DFloatType) (i : Int) : Fin 256 :=
  let currDistSq := PixelDistSq sourceWidth sourceHeight sdfWidth sdfHeight fieldDistance edgeBuffer i
  let outside := PixelOutside sourceWidth sourceHeight sdfWidth sdfHeight pixels pixelWidth
    channelOffset i
  toUInt8 (QuantizeLevel currDistSq (xor outside invertDistance) fieldDistance)

/-- The function `URTMSDF_BitmapFactory::CreateDistanceField` (the overload with separate
source and output sizes): the output buffer after the call.  The source samples are read from
`pixels` as it is on entry, which is what the code does when the output buffer is another
buffer than the source. -/
def CreateDistanceField (sourceWidth sourceHeight sdfWidth sdfHeight : Int) (pixels : PixelBuffer)
    (pixelWidth channelOffset : Int) (fieldDistance : ℚ) (invertDistance : Bool)
    (intersectionMap : FloatBuffer) (outPixelBuffer : PixelBuffer) : PixelBuffer :=
  let intersectionMapWidth := sourceWidth - 1
  let intersectionMapHeight := sourceHeight - 1
  let edgeBuffer := (FindEdges intersectionMapHeight intersectionMapWidth intersectionMap).2
  (List.range (sdfWidth * sdfHeight).toNat).foldl
    (fun out (i : Nat) => store out ((i : Int) * pixelWidth + channelOffset)
      (SdfMip sourceWidth sourceHeight sdfWidth sdfHeight pixels pixelWidth channelOffset
        fieldDistance invertDistance edgeBuffer i))
    outPixelBuffer

/-! ## The importer (`FactoryCreateBinary`) -/

/-- The call `CreateDistanceField (width, height, mip, .., mip)` of the PreserveRGB path, made
through the overload for equal source and output sizes.  Source and output are one buffer
there, so the loop body for pixel `i` reads its samples from the buffer as the earlier
iterations left it, the iterations being taken in the order of the index. -/
def CreateDistanceFieldInPlace (width height : Int) (pixels : PixelBuffer)
    (pixelWidth channelOffset : Int) (fieldDistance : ℚ) (invertDistance : Bool)
    (intersections : FloatBuffer) : PixelBuffer :=
  let edgeBuffer := (FindEdges (height - 1) (width - 1) intersections).2
  (List.range (width * height).toNat).foldl
    (fun buf (i : Nat) => store buf ((i : Int) * pixelWidth + channelOffset)
      (SdfMip width height width height buf pixelWidth channelOffset
        fieldDistance invertDistance edgeBuffer i))
    pixels

/-- The buffer of the in-place call after the loop body has run for the pixels
`0, .., n - 1`; the call returns the buffer after `width * height` of them. -/
def InPlaceAfter (width height : Int) (pixels : PixelBuffer)
    (pixelWidth channelOffset : Int) (fieldDistance : ℚ) (invertDistance : Bool)
    (intersections : FloatBuffer) (n : Nat) : PixelBuffer :=
  let edgeBuffer := (FindEdges (height - 1) (width - 1) intersections).2
  (List.range n).foldl
    (fun buf (i : Nat) => store buf ((i : Int) * pixelWidth + channelOffset)
      (SdfMip width height width height buf pixelWidth channelOffset
        fieldDistance invertDistance edgeBuffer i))
    pixels

/-- What the channel loop of the PreserveRGB path threads through: the locked mip, the scratch
buffer `sourceIntersections` and `numIntersections`. -/
structure PreserveState where
  mip : PixelBuffer
  sourceIntersections : FloatBuffer
  numIntersections : Nat

/-- The body of the channel loop of the PreserveRGB path for channel `i`: only a channel with
the Alpha role is looked at, and it is rendered in place when `FindIntersections` succeeds. -/
def PreserveRGBChannel (sourceWidth sourceHeight elementWidth : Int) (range : ℚ)
    (InvertDistance : Bool) (channelColors : List ERTMSDF_Channels) (st : PreserveState)
    (i : Nat) : PreserveState :=
  if channelColors[i]? = some ERTMSDF_Channels.Alpha then
    let found := FindIntersections sourceWidth sourceHeight st.mip elementWidth (i : Int)
      st.sourceIntersections
    if found.found then
      ⟨CreateDistanceFieldInPlace sourceWidth sourceHeight st.mip elementWidth (i : Int) range
          InvertDistance found.outIntersectionBuffer,
        found.outIntersectionBuffer, found.outNumIntersections⟩
    else ⟨st.mip, found.outIntersectionBuffer, found.outNumIntersections⟩
  else st

/-- The branch `if (wantPreserveRGB)` of `FactoryCreateBinary`: the loop over the channels. -/
def PreserveRGBPath (sourceWidth sourceHeight elementWidth : Int) (range : ℚ)
    (InvertDistance : Bool) (channelColors : List ERTMSDF_Channels) (mip : PixelBuffer)
    (sourceIntersections : FloatBuffer) : PreserveState :=
  (List.range channelColors.length).foldl
    (PreserveRGBChannel sourceWidth sourceHeight elementWidth range InvertDistance channelColors)
    ⟨mip, sourceIntersections, 0⟩

/-- The sample of the channel at column `x` and row `y` of a buffer that is `width` pixels
wide. -/
def Sample (width : Int) (pixels : PixelBuffer) (pixelWidth channelOffset x y : Int) : Fin 256 :=
  pixels ((y * width + x) * pixelWidth + channelOffset)

/-- The crossing parameter between the samples `v0` and `v1`: `(127 - v0) / (v1 - v0)`, and the
sentinel `-FLT_MAX` when `v1 = v0` or when the quotient is above `1`. -/
def CrossingParameter (v0 v1 : Fin 256) : ℚ :=
  if v1 = v0 then -FLT_MAX
  else if ((127 : ℚ) - v0.val) / ((v1.val : ℚ) - v0.val) > 1 then -FLT_MAX
  else ((127 : ℚ) - v0.val) / ((v1.val : ℚ) - v0.val)

/-- The top parameter of cell `(x, y)`: the crossing between `(x, y)` and `(x + 1, y)`. -/
def TopParameter (width : Int) (pixels : PixelBuffer) (pixelWidth channelOffset x y : Int) : ℚ :=
  CrossingParameter (Sample width pixels pixelWidth channelOffset x y)
    (Sample width pixels pixelWidth channelOffset (x + 1) y)

/-- The left parameter of cell `(x, y)`: the crossing between `(x, y)` and `(x, y + 1)`. -/
def LeftParameter (width : Int) (pixels : PixelBuffer) (pixelWidth channelOffset x y : Int) : ℚ :=
  CrossingParameter (Sample width pixels pixelWidth channelOffset x y)
    (Sample width pixels pixelWidth channelOffset x (y + 1))

/-- The cells of a grid of `rows` rows and `cols` columns, row by row. -/
def GridCells (rows cols : Nat) : List (Nat × Nat) :=
  (List.range rows).flatMap (fun y => (List.range cols).map (fun x => (y, x)))

/-- The number of stored parameters, the top and the left one of every cell of the map, that
`accept` admits. -/
def CountStored (accept : ℚ → Bool) (intersectionMapHeight intersectionMapWidth : Int)
    (intersectionMap : FloatBuffer) : Nat :=
  ((GridCells intersectionMapHeight.toNat intersectionMapWidth.toNat).map (fun c =>
    (if accept (intersectionMap (((c.1 : Int) * intersectionMapWidth + (c.2 : Int)) * 2))
      then 1 else 0) +
    (if accept (intersectionMap (((c.1 : Int) * intersectionMapWidth + (c.2 : Int)) * 2 + 1))
      then 1 else 0))).sum

/-- The crossing points of cell `(x, y)` as the specification gathers them, in the order top,
bottom, left, right: a point on the top or bottom side when `acceptHorizontal` admits the
parameter of that side, a point on the left or right side when `acceptVertical` does.  The
bottom parameter is the top parameter of the cell one row below, the right parameter is the
left parameter of the cell one column to the right, and a side whose neighbour cell is
outside the map has no crossing. -/
def SidePoints (acceptHorizontal acceptVertical : ℚ → Bool)
    (intersectionMapHeight intersectionMapWidth : Int) (intersectionMap : FloatBuffer)
    (y x : Int) : List FVector2DFloatType :=
  (if acceptHorizontal (intersectionMap ((y * intersectionMapWidth + x) * 2))
    then [⟨x + intersectionMap ((y * intersectionMapWidth + x) * 2), y⟩] else []) ++
  ((if y + 1 < intersectionMapHeight ∧
      acceptHorizontal (intersectionMap (((y + 1) * intersectionMapWidth + x) * 2))
    then [⟨x + intersectionMap (((y + 1) * intersectionMapWidth + x) * 2), y + 1⟩] else []) ++
  ((if acceptVertical (intersectionMap ((y * intersectionMapWidth + x) * 2 + 1))
    then [⟨x, y + intersectionMap ((y * intersectionMapWidth + x) * 2 + 1)⟩] else []) ++
  (if x + 1 < intersectionMapWidth ∧
      acceptVertical (intersectionMap ((y * intersectionMapWidth + (x + 1)) * 2 + 1))
    then [⟨x + 1, y + intersectionMap ((y * intersectionMapWidth + (x + 1)) * 2 + 1)⟩]
    else [])))

/-- The segments of an edge list: its points taken two by two. -/
def Segments : List FVector2DFloatType → List (FVector2DFloatType × FVector2DFloatType)
  | a :: b :: rest => (a, b) :: Segments rest
  | _ => []

/-- The Chebyshev distance between two points. -/
def Chebyshev (p a : FVector2DFloatType) : ℚ := max |p.X - a.X| |p.Y - a.Y|

/-- The point of the segment from `a` to `b` at parameter `t`; the closed segment is the set
of these points for `0 ≤ t ≤ 1`. -/
def SegmentPoint (a b : FVector2DFloatType) (t : ℚ) : FVector2DFloatType :=
  ⟨a.X + t * (b.X - a.X), a.Y + t * (b.Y - a.Y)⟩

/-- The squared distance `d` from `p` to the closed segment from `a` to `b`: the least squared
distance from `p` to a point of the segment. -/
def IsSegmentDistSq (p a b : FVector2DFloatType) (d : ℚ) : Prop :=
  IsLeast {e : ℚ | ∃ t : ℚ, 0 ≤ t ∧ t ≤ 1 ∧
    e = FVector2DFloatType.DistSquared p (SegmentPoint a b t)} d

/-- The squared distance `d` that the renderer works with at the point `p`: the least of
`half ^ 2` and the squared distances from `p` to the segments of the edge list that have both
endpoints within Chebyshev distance `half` of `p`. -/
def IsWindowDistSq (p : FVector2DFloatType) (half : ℚ) (edges : List FVector2DFloatType)
    (d : ℚ) : Prop :=
  IsLeast {e : ℚ | e = half ^ 2 ∨ ∃ s ∈ Segments edges,
    Chebyshev p s.1 ≤ half ∧ Chebyshev p s.2 ≤ half ∧ IsSegmentDistSq p s.1 s.2 e} d

/-- The squared distance `d` from `p` to the nearest segment of the edge list, all segments
counted. -/
def IsNearestDistSq (p : FVector2DFloatType) (edges : List FVector2DFloatType) (d : ℚ) : Prop :=
  IsLeast {e : ℚ | ∃ s ∈ Segments edges, IsSegmentDistSq p s.1 s.2 e} d

/-! ## Concrete inputs -/

/-- A buffer of two columns and three rows, one byte per pixel, with the samples `0 255` over
`0 255` over `255 255`. -/
def tallBuffer : PixelBuffer :=
  fun i => if i = 0 ∨ i = 2 then ⟨0, by decide⟩ else ⟨255, by decide⟩

/-- A buffer of two columns and two rows, one byte per pixel, with the samples `128 129` over
`128 128`. -/
def risingBuffer : PixelBuffer := fun i => if i = 1 then ⟨129, by decide⟩ else ⟨128, by decide⟩

/-- A buffer of two columns and two rows, one byte per pixel, with the samples `0 127` over
`0 0`. -/
def thresholdBuffer : PixelBuffer := fun i => if i = 1 then ⟨127, by decide⟩ else ⟨0, by decide⟩

/-- A buffer of two columns and two rows, one byte per pixel, with the samples `0 254` over
`0 0`. -/
def stepBuffer : PixelBuffer := fun i => if i = 1 then ⟨254, by decide⟩ else ⟨0, by decide⟩

/-- A buffer in which every sample is `200`. -/
def flatBuffer : PixelBuffer := fun _ => ⟨200, by decide⟩

/-- A float buffer of zeros. -/
def zeroFloats : FloatBuffer := fun _ => 0

/-- An intersection map in which every parameter is `1 / 2`. -/
def halfFloats : FloatBuffer := fun _ => 1 / 2

/-- The bitmap of the scenario: four columns and four rows, one byte per pixel, the columns
`0` and `1` at `0` and the columns `2` and `3` at `255`. -/
def edgeBitmap : PixelBuffer := fun i => if i % 4 < 2 then ⟨0, by decide⟩ else ⟨255, by decide⟩

/-- A byte buffer of zeros. -/
def zeroBytes : PixelBuffer := fun _ => ⟨0, by decide⟩

/-- A buffer of three columns and two rows, one byte per pixel, with the samples `0 127 255` in
both rows. -/
def plateauBuffer : PixelBuffer :=
  fun i => if i % 3 = 0 then ⟨0, by decide⟩ else if i % 3 = 1 then ⟨127, by decide⟩
    else ⟨255, by decide⟩

/-- A buffer of two columns and two rows, one byte per pixel, with the samples `0 254` over
`254 254`. -/
def cornerBuffer : PixelBuffer := fun i => if i = 0 then ⟨0, by decide⟩ else ⟨254, by decide⟩

/-- A buffer of four bytes per pixel in which the byte at offset `i` is `i mod 256`. -/
def rampBuffer : PixelBuffer := fun i => toUInt8 i

/-- The output of the scenario: the bitmap `edgeBitmap` put through `FindIntersections` and
then through `CreateDistanceField`, which calls `FindEdges`, at the same size of four by four
with `fieldDistance = 2`, into a buffer of zeros.  The sample of column `c` and row `r` is at
offset `r * 4 + c`. -/
def scenarioOutput (invertDistance : Bool) : PixelBuffer :=
  CreateDistanceField 4 4 4 4 edgeBitmap 1 0 2 invertDistance
    (FindIntersections 4 4 edgeBitmap 1 0 zeroFloats).outIntersectionBuffer zeroBytes

/-- An intersection map of two by two cells in which every parameter is `1 / 2`, but for the
left parameter of cell `(1, 0)`, at offset `3`, which is `-1`: cell `(0, 0)` has accepted
crossings on its top, bottom and left sides and none on its right side. -/
def threeSidedMap : FloatBuffer := fun i => if i = 3 then -1 else 1 / 2

/-- A buffer of two columns and three rows with four bytes to the pixel, whose last byte,
the alpha channel, holds the samples of `tallBuffer`: `0 255`, `0 255`, `255 255`.  The other
bytes are `0`. -/
def tallAlphaBuffer : PixelBuffer :=
  fun i => if i % 4 = 3 then tallBuffer (i / 4) else ⟨0, by decide⟩

/-! ## Theorems -/

/-- C1: with an empty role list, `GetTextureFormat` gives `[Alpha]` and success for `TSF_G8`,
`[Blue, Green, Red, Alpha]` and success for `TSF_BGRA8` and `TSF_BGRE8`, and failure with the
list still empty for every other tag, the 16-bit and floating-point ones among them. -/
theorem getTextureFormat_empty (format : ETextureSourceFormat) :
    GetTextureFormat format [] =
      if format = .TSF_G8 then (true, [ERTMSDF_Channels.Alpha])
      else if format = .TSF_BGRA8 ∨ format = .TSF_BGRE8 then
        (true, [ERTMSDF_Channels.Blue, ERTMSDF_Channels.Green, ERTMSDF_Channels.Red,
          ERTMSDF_Channels.Alpha])
      else (false, []) := by
  cases format <;> simp [GetTextureFormat]

/-! ### Engine helpers -/

theorem toUInt8_val (b : Fin 256) : toUInt8 (b.val : Int) = b := by
  apply Fin.ext
  have hb := b.isLt
  simp only [toUInt8]
  omega

theorem clamp_of_mem {x lo hi : ℚ} (h1 : lo ≤ x) (h2 : x ≤ hi) : FMath.Clamp x lo hi = x := by
  simp [FMath.Clamp, min_eq_left h2, max_eq_left h1]

theorem roundToInt_natCast (n : Nat) : FMath.RoundToInt (n : ℚ) = n := by
  unfold FMath.RoundToInt FMath.FloorToInt
  rw [Int.floor_eq_iff]
  constructor <;> push_cast <;> linarith

/-! ### Coordinate map and bilinear sampler -/

/-- C10: with the source size equal to the target size, both positive, `TransformPos` is the
identity on every point. -/
theorem transformPos_same_size (w h : ℚ) (hw : 0 < w) (hh : 0 < h) (p : FVector2DFloatType) :
    TransformPos w h w h p = p := by
  cases p with
  | mk px py =>
    simp only [TransformPos, FVector2DFloatType.subScalar, FVector2DFloatType.divScalar,
      FVector2DFloatType.sub, FVector2DFloatType.mul, FVector2DFloatType.add,
      div_self (ne_of_gt hw), div_self (ne_of_gt hh)]
    congr 1 <;> ring

theorem transformPos_same_size_witness :
    (0 : ℚ) < 4 ∧ (0 : ℚ) < 3 ∧ TransformPos 4 3 4 3 ⟨1, 2⟩ = ⟨1, 2⟩ :=
  ⟨by norm_num, by norm_num, transformPos_same_size 4 3 (by norm_num) (by norm_num) ⟨1, 2⟩⟩

/-- At an integer position whose row number is also below `width`, the sampler returns the
sample of that position. -/
theorem computePixelValue_at_sample (width height : Int) (buffer : PixelBuffer)
    (pixelWidth channelOffset x y : Int) (hx0 : 0 ≤ x) (hx : x < width) (hy0 : 0 ≤ y)
    (hyw : y < width) :
    ComputePixelValue ⟨x, y⟩ width height buffer pixelWidth channelOffset =
      buffer ((y * width + x) * pixelWidth + channelOffset) := by
  have hxq : ((x : ℚ)) ≤ (width : ℚ) - 1 := by
    have : x ≤ width - 1 := by omega
    exact_mod_cast this
  have hyq : ((y : ℚ)) ≤ (width : ℚ) - 1 := by
    have : y ≤ width - 1 := by omega
    exact_mod_cast this
  have hx0q : (0 : ℚ) ≤ x := by exact_mod_cast hx0
  have hy0q : (0 : ℚ) ≤ y := by exact_mod_cast hy0
  simp only [ComputePixelValue, ClampedPos, clamp_of_mem hx0q hxq, clamp_of_mem hy0q hyq,
    FMath.FloorToInt, Int.floor_intCast, sub_self, sub_zero, mul_one, mul_zero, add_zero]
  rw [roundToInt_natCast, toUInt8_val]

/-! ### Loops over a grid -/

theorem foldl_grid {σ : Type} (f : Nat → Nat → σ → σ) (rows : List Nat) (cols : List Nat) (s : σ) :
    rows.foldl (fun st y => cols.foldl (fun st x => f y x st) st) s =
      (rows.flatMap (fun y => cols.map (fun x => (y, x)))).foldl (fun st c => f c.1 c.2 st) s := by
  induction rows generalizing s with
  | nil => rfl
  | cons y rows ih =>
    simp only [List.foldl_cons, List.flatMap_cons, List.foldl_append, List.foldl_map]
    exact ih _

theorem mem_gridCells {rows cols : Nat} {c : Nat × Nat} :
    c ∈ GridCells rows cols ↔ c.1 < rows ∧ c.2 < cols := by
  obtain ⟨y, x⟩ := c
  simp only [GridCells, List.mem_flatMap, List.mem_range, List.mem_map, Prod.mk.injEq]
  constructor
  · rintro ⟨a, ha, b, hb, rfl, rfl⟩
    exact ⟨ha, hb⟩
  · rintro ⟨hy, hx⟩
    exact ⟨y, hy, x, hx, rfl, rfl⟩

/-- Row-major numbering: two cells of a grid of width `w` with the same number are the same
cell. -/
theorem rowMajor_inj {w y x y2 x2 : Int} (hx0 : 0 ≤ x) (hx : x < w) (hx20 : 0 ≤ x2)
    (hx2 : x2 < w) (h : y * w + x = y2 * w + x2) : y = y2 ∧ x = x2 := by
  have hy : y = y2 := by
    rcases lt_trichotomy y y2 with hlt | heq | hgt
    · exfalso
      have h1 : (y2 - y - 1) * w ≥ 0 := mul_nonneg (by omega) (by omega)
      nlinarith
    · exact heq
    · exfalso
      have h1 : (y - y2 - 1) * w ≥ 0 := mul_nonneg (by omega) (by omega)
      nlinarith
  subst hy
  exact ⟨rfl, by omega⟩

/-! ### Intersection detector -/

theorem store_same {α : Type} (buffer : Int → α) (idx : Int) (value : α) :
    store buffer idx value idx = value := by
  simp [store]

theorem store_other {α : Type} (buffer : Int → α) (idx j : Int) (value : α) (h : j ≠ idx) :
    store buffer idx value j = buffer j := by
  simp [store, h]

/-- The quotient that the code forms from the bytes is the crossing parameter of the
specification. -/
theorem crossing_eq (v0 v1 : Fin 256) :
    (if (if ((((v1.val : Int) - (v0.val : Int) : Int) : ℚ)) ≠ 0
          then ((127 - (v0.val : Int) : Int) : ℚ) / ((((v1.val : Int) - (v0.val : Int) : Int) : ℚ))
          else -FLT_MAX) > 1
      then -FLT_MAX
      else (if ((((v1.val : Int) - (v0.val : Int) : Int) : ℚ)) ≠ 0
          then ((127 - (v0.val : Int) : Int) : ℚ) / ((((v1.val : Int) - (v0.val : Int) : Int) : ℚ))
          else -FLT_MAX)) = CrossingParameter v0 v1 := by
  unfold CrossingParameter
  by_cases h : v1 = v0
  · subst h
    simp [FLT_MAX]
  · have hne : ((((v1.val : Int) - (v0.val : Int) : Int) : ℚ)) ≠ 0 := by
      have h2 : (v1.val : Int) - (v0.val : Int) ≠ 0 := by
        intro h3
        apply h
        apply Fin.ext
        omega
      exact_mod_cast h2
    simp only [hne, ne_eq, not_false_eq_true, if_true, h, if_false]
    push_cast
    rfl

/-- The loop body of `FindIntersections` stores the two parameters of its cell and adds to
the counter one for each of them that is not negative. -/
theorem findIntersectionsCell_eq (width : Int) (pixels : PixelBuffer)
    (pixelWidth channelOffset eY eX : Int) (st : IntersectionState) :
    FindIntersectionsCell width pixels pixelWidth channelOffset eY eX st =
      ⟨store (store st.outIntersectionBuffer ((eY * (width - 1) + eX) * 2)
          (TopParameter width pixels pixelWidth channelOffset eX eY))
          ((eY * (width - 1) + eX) * 2 + 1)
          (LeftParameter width pixels pixelWidth channelOffset eX eY),
        st.numFound
          + (if 0 ≤ TopParameter width pixels pixelWidth channelOffset eX eY then 1 else 0)
          + (if 0 ≤ LeftParameter width pixels pixelWidth channelOffset eX eY then 1 else 0)⟩ := by
  have hs1 : (eY * width + eX + 1) = eY * width + (eX + 1) := by ring
  have hs2 : (eY * width + eX + width) = (eY + 1) * width + eX := by ring
  have hne : (eY * (width - 1) + eX) * 2 ≠ (eY * (width - 1) + eX) * 2 + 1 := by omega
  simp only [FindIntersectionsCell, crossing_eq, hs1, hs2, store_same, store_other _ _ _ _ hne,
    TopParameter, LeftParameter, Sample, ge_iff_le]
  congr 1
  split <;> split <;> rfl

/-- The counter after a run of the loop body over a list of cells. -/
theorem foldl_cells_numFound (width : Int) (pixels : PixelBuffer) (pixelWidth channelOffset : Int)
    (cs : List (Nat × Nat)) (s : IntersectionState) :
    (cs.foldl (fun st c => FindIntersectionsCell width pixels pixelWidth channelOffset
        (c.1 : Int) (c.2 : Int) st) s).numFound =
      s.numFound + (cs.map (fun c =>
        (if 0 ≤ TopParameter width pixels pixelWidth channelOffset (c.2 : Int) (c.1 : Int)
          then 1 else 0) +
        (if 0 ≤ LeftParameter width pixels pixelWidth channelOffset (c.2 : Int) (c.1 : Int)
          then 1 else 0))).sum := by
  induction cs generalizing s with
  | nil => simp
  | cons c cs ih =>
    simp only [List.foldl_cons, List.map_cons, List.sum_cons]
    rw [ih, findIntersectionsCell_eq]
    simp only
    omega

/-- A cell of the buffer that no cell of the list owns keeps its content. -/
theorem foldl_cells_untouched (width : Int) (pixels : PixelBuffer)
    (pixelWidth channelOffset : Int) (cs : List (Nat × Nat)) (s : IntersectionState) (j : Int)
    (hj : ∀ c ∈ cs, j ≠ ((c.1 : Int) * (width - 1) + (c.2 : Int)) * 2 ∧
      j ≠ ((c.1 : Int) * (width - 1) + (c.2 : Int)) * 2 + 1) :
    (cs.foldl (fun st c => FindIntersectionsCell width pixels pixelWidth channelOffset
        (c.1 : Int) (c.2 : Int) st) s).outIntersectionBuffer j = s.outIntersectionBuffer j := by
  induction cs generalizing s with
  | nil => rfl
  | cons c cs ih =>
    simp only [List.foldl_cons]
    rw [ih _ (fun c2 h2 => hj c2 (List.mem_cons_of_mem _ h2)), findIntersectionsCell_eq]
    have h := hj c (List.mem_cons_self _ _)
    simp only
    rw [store_other _ _ _ _ h.2, store_other _ _ _ _ h.1]

/-- After a run of the loop body over a list of cells of the map, each of them holds its two
parameters. -/
theorem foldl_cells_written (width : Int) (pixels : PixelBuffer)
    (pixelWidth channelOffset : Int) (cs : List (Nat × Nat)) (s : IntersectionState)
    (hcs : ∀ c ∈ cs, (c.2 : Int) < width - 1) (c : Nat × Nat) (hc : c ∈ cs) :
    (cs.foldl (fun st c => FindIntersectionsCell width pixels pixelWidth channelOffset
        (c.1 : Int) (c.2 : Int) st) s).outIntersectionBuffer
        (((c.1 : Int) * (width - 1) + (c.2 : Int)) * 2) =
      TopParameter width pixels pixelWidth channelOffset (c.2 : Int) (c.1 : Int) ∧
    (cs.foldl (fun st c => FindIntersectionsCell width pixels pixelWidth channelOffset
        (c.1 : Int) (c.2 : Int) st) s).outIntersectionBuffer
        (((c.1 : Int) * (width - 1) + (c.2 : Int)) * 2 + 1) =
      LeftParameter width pixels pixelWidth channelOffset (c.2 : Int) (c.1 : Int) := by
  induction cs generalizing s with
  | nil => cases hc
  | cons c0 cs ih =>
    simp only [List.foldl_cons]
    by_cases hmem : c ∈ cs
    · exact ih _ (fun c2 h2 => hcs c2 (List.mem_cons_of_mem _ h2)) hmem
    · have hc0 : c = c0 := by
        rcases List.mem_cons.mp hc with h | h
        · exact h
        · exact absurd h hmem
      subst hc0
      have hfree : ∀ c2 ∈ cs,
          ((c.1 : Int) * (width - 1) + (c.2 : Int)) * 2 ≠
            ((c2.1 : Int) * (width - 1) + (c2.2 : Int)) * 2 := by
        intro c2 h2 heq
        have h3 : (c.1 : Int) * (width - 1) + (c.2 : Int) =
            (c2.1 : Int) * (width - 1) + (c2.2 : Int) := by omega
        have h4 := rowMajor_inj (Int.ofNat_nonneg _) (hcs c (List.mem_cons_self _ _))
          (Int.ofNat_nonneg _) (hcs c2 (List.mem_cons_of_mem _ h2)) h3
        apply hmem
        have h5 : c = c2 := by
          apply Prod.ext
          · exact_mod_cast h4.1
          · exact_mod_cast h4.2
        rw [h5]
        exact h2
      constructor
      · rw [foldl_cells_untouched, findIntersectionsCell_eq]
        · simp only
          rw [store_other _ _ _ _ (by omega), store_same]
        · intro c2 h2
          exact ⟨hfree c2 h2, by omega⟩
      · rw [foldl_cells_untouched, findIntersectionsCell_eq]
        · simp only
          rw [store_same]
        · intro c2 h2
          have := hfree c2 h2
          exact ⟨by omega, by omega⟩

theorem findIntersections_eq (width height : Int) (pixels : PixelBuffer)
    (pixelWidth channelOffset : Int) (out : FloatBuffer) :
    FindIntersections width height pixels pixelWidth channelOffset out =
      ⟨decide (((GridCells (height - 1).toNat (width - 1).toNat).foldl
          (fun st c => FindIntersectionsCell width pixels pixelWidth channelOffset
            (c.1 : Int) (c.2 : Int) st) ⟨out, 0⟩).numFound > 1),
        ((GridCells (height - 1).toNat (width - 1).toNat).foldl
          (fun st c => FindIntersectionsCell width pixels pixelWidth channelOffset
            (c.1 : Int) (c.2 : Int) st) ⟨out, 0⟩).outIntersectionBuffer,
        ((GridCells (height - 1).toNat (width - 1).toNat).foldl
          (fun st c => FindIntersectionsCell width pixels pixelWidth channelOffset
            (c.1 : Int) (c.2 : Int) st) ⟨out, 0⟩).numFound⟩ := by
  dsimp only [FindIntersections, GridCells]
  rw [foldl_grid (fun y x st => FindIntersectionsCell width pixels pixelWidth channelOffset
    (y : Int) (x : Int) st)]

/-- The buffer that `FindIntersections` leaves holds, for every cell of the map, the top and
the left parameter of the cell. -/
theorem findIntersections_cell (width height : Int) (pixels : PixelBuffer)
    (pixelWidth channelOffset : Int) (out : FloatBuffer) (x y : Int)
    (hx0 : 0 ≤ x) (hx : x < width - 1) (hy0 : 0 ≤ y) (hy : y < height - 1) :
    (FindIntersections width height pixels pixelWidth channelOffset out).outIntersectionBuffer
        ((y * (width - 1) + x) * 2) =
      TopParameter width pixels pixelWidth channelOffset x y ∧
    (FindIntersections width height pixels pixelWidth channelOffset out).outIntersectionBuffer
        ((y * (width - 1) + x) * 2 + 1) =
      LeftParameter width pixels pixelWidth channelOffset x y := by
  rw [findIntersections_eq]
  have hmem : (y.toNat, x.toNat) ∈ GridCells (height - 1).toNat (width - 1).toNat := by
    rw [mem_gridCells]
    constructor <;> simp only <;> omega
  have hcs : ∀ c ∈ GridCells (height - 1).toNat (width - 1).toNat, (c.2 : Int) < width - 1 := by
    intro c hc
    rw [mem_gridCells] at hc
    omega
  have h := foldl_cells_written width pixels pixelWidth channelOffset _ ⟨out, 0⟩ hcs _ hmem
  simp only [Int.toNat_of_nonneg hx0, Int.toNat_of_nonneg hy0] at h
  exact h

theorem findIntersections_numFound (width height : Int) (pixels : PixelBuffer)
    (pixelWidth channelOffset : Int) (out : FloatBuffer) :
    (FindIntersections width height pixels pixelWidth channelOffset out).outNumIntersections =
      ((GridCells (height - 1).toNat (width - 1).toNat).map (fun c =>
        (if 0 ≤ TopParameter width pixels pixelWidth channelOffset (c.2 : Int) (c.1 : Int)
          then 1 else 0) +
        (if 0 ≤ LeftParameter width pixels pixelWidth channelOffset (c.2 : Int) (c.1 : Int)
          then 1 else 0))).sum := by
  rw [findIntersections_eq]
  simp only [foldl_cells_numFound, Nat.zero_add]

theorem findIntersections_found (width height : Int) (pixels : PixelBuffer)
    (pixelWidth channelOffset : Int) (out : FloatBuffer) :
    (FindIntersections width height pixels pixelWidth channelOffset out).found =
      decide (2 ≤
        (FindIntersections width height pixels pixelWidth channelOffset out).outNumIntersections)
    := by
  rw [findIntersections_eq]
  rfl

theorem fltMax_pos : 0 < FLT_MAX := by
  unfold FLT_MAX
  norm_num

theorem crossingParameter_le_one (v0 v1 : Fin 256) : CrossingParameter v0 v1 ≤ 1 := by
  have hm := fltMax_pos
  unfold CrossingParameter
  split_ifs with h1 h2
  · linarith
  · linarith
  · exact not_lt.mp h2

theorem crossingParameter_self (v : Fin 256) : CrossingParameter v v = -FLT_MAX := by
  simp [CrossingParameter]

/-- A stored parameter is the sentinel or a quotient between `-127` and `1`. -/
theorem crossingParameter_range (v0 v1 : Fin 256) :
    CrossingParameter v0 v1 = -FLT_MAX ∨
      (-127 ≤ CrossingParameter v0 v1 ∧ CrossingParameter v0 v1 ≤ 1) := by
  unfold CrossingParameter
  split_ifs with h1 h2
  · exact Or.inl rfl
  · exact Or.inl rfl
  · right
    refine ⟨?_, not_lt.mp h2⟩
    have ha : (v0.val : ℚ) ≤ 255 := by
      have := v0.isLt
      exact_mod_cast (by omega : v0.val ≤ 255)
    have hb : (v1.val : ℚ) ≤ 255 := by
      have := v1.isLt
      exact_mod_cast (by omega : v1.val ≤ 255)
    have ha0 : (0 : ℚ) ≤ (v0.val : ℚ) := Nat.cast_nonneg _
    have hb0 : (0 : ℚ) ≤ (v1.val : ℚ) := Nat.cast_nonneg _
    have hne : v1.val ≠ v0.val := fun h => h1 (Fin.ext h)
    rcases Nat.lt_or_gt_of_ne hne with hlt | hgt
    · have h3 : (v1.val : ℚ) + 1 ≤ (v0.val : ℚ) := by exact_mod_cast hlt
      have hden : (v1.val : ℚ) - (v0.val : ℚ) < 0 := by linarith
      rw [le_div_iff_of_neg hden]
      linarith
    · have h3 : (v0.val : ℚ) + 1 ≤ (v1.val : ℚ) := by exact_mod_cast hgt
      have hden : (0 : ℚ) < (v1.val : ℚ) - (v0.val : ℚ) := by linarith
      rw [le_div_iff₀ hden]
      linarith

theorem thresholdBuffer_top : TopParameter 2 thresholdBuffer 1 0 0 0 = 1 := by
  norm_num [TopParameter, Sample, CrossingParameter, thresholdBuffer, Fin.ext_iff]

theorem thresholdBuffer_left : LeftParameter 2 thresholdBuffer 1 0 0 0 = -FLT_MAX := by
  norm_num [LeftParameter, Sample, CrossingParameter, thresholdBuffer, Fin.ext_iff]

theorem risingBuffer_top : TopParameter 2 risingBuffer 1 0 0 0 = -1 := by
  norm_num [TopParameter, Sample, CrossingParameter, risingBuffer, Fin.ext_iff]

theorem stepBuffer_top : TopParameter 2 stepBuffer 1 0 0 0 = 1 / 2 := by
  norm_num [TopParameter, Sample, CrossingParameter, stepBuffer, Fin.ext_iff]

theorem stepBuffer_left : LeftParameter 2 stepBuffer 1 0 0 0 = -FLT_MAX := by
  norm_num [LeftParameter, Sample, CrossingParameter, stepBuffer, Fin.ext_iff]

/-- C2: for a buffer of at least two columns and two rows and a cell `(x, y)` of the map,
`FindIntersections` stores as the top parameter `(127 - v0) / (v1 - v0)` with
`v0 = sample (x, y)` and `v1 = sample (x + 1, y)`, as the left parameter the same with
`v1 = sample (x, y + 1)`, and the sentinel `-FLT_MAX` in place of the quotient when `v1 = v0`
or when the quotient is above `1`; a quotient that is zero or negative is stored as it is. -/
theorem findIntersections_stores_crossings (width height : Int) (pixels : PixelBuffer)
    (pixelWidth channelOffset : Int) (out : FloatBuffer) (x y : Int)
    (_hw : 2 ≤ width) (_hh : 2 ≤ height)
    (hx0 : 0 ≤ x) (hx : x < width - 1) (hy0 : 0 ≤ y) (hy : y < height - 1) :
    (FindIntersections width height pixels pixelWidth channelOffset out).outIntersectionBuffer
        ((y * (width - 1) + x) * 2) =
      (if Sample width pixels pixelWidth channelOffset (x + 1) y =
            Sample width pixels pixelWidth channelOffset x y ∨
          ((127 : ℚ) - (Sample width pixels pixelWidth channelOffset x y).val) /
            (((Sample width pixels pixelWidth channelOffset (x + 1) y).val : ℚ) -
              (Sample width pixels pixelWidth channelOffset x y).val) > 1
        then -FLT_MAX
        else ((127 : ℚ) - (Sample width pixels pixelWidth channelOffset x y).val) /
            (((Sample width pixels pixelWidth channelOffset (x + 1) y).val : ℚ) -
              (Sample width pixels pixelWidth channelOffset x y).val)) ∧
    (FindIntersections width height pixels pixelWidth channelOffset out).outIntersectionBuffer
        ((y * (width - 1) + x) * 2 + 1) =
      (if Sample width pixels pixelWidth channelOffset x (y + 1) =
            Sample width pixels pixelWidth channelOffset x y ∨
          ((127 : ℚ) - (Sample width pixels pixelWidth channelOffset x y).val) /
            (((Sample width pixels pixelWidth channelOffset x (y + 1)).val : ℚ) -
              (Sample width pixels pixelWidth channelOffset x y).val) > 1
        then -FLT_MAX
        else ((127 : ℚ) - (Sample width pixels pixelWidth channelOffset x y).val) /
            (((Sample width pixels pixelWidth channelOffset x (y + 1)).val : ℚ) -
              (Sample width pixels pixelWidth channelOffset x y).val)) := by
  have h := findIntersections_cell width height pixels pixelWidth channelOffset out x y
    hx0 hx hy0 hy
  rw [h.1, h.2]
  unfold TopParameter LeftParameter CrossingParameter
  constructor
  · by_cases h1 : Sample width pixels pixelWidth channelOffset (x + 1) y =
        Sample width pixels pixelWidth channelOffset x y
    · simp only [h1, true_or, if_true]
    · simp only [h1, false_or, if_false]
  · by_cases h1 : Sample width pixels pixelWidth channelOffset x (y + 1) =
        Sample width pixels pixelWidth channelOffset x y
    · simp only [h1, true_or, if_true]
    · simp only [h1, false_or, if_false]

theorem findIntersections_stores_crossings_witness :
    (FindIntersections 2 2 stepBuffer 1 0 zeroFloats).outIntersectionBuffer 0 = 1 / 2 ∧
      (FindIntersections 2 2 stepBuffer 1 0 zeroFloats).outIntersectionBuffer 1 = -FLT_MAX := by
  have h := findIntersections_stores_crossings 2 2 stepBuffer 1 0 zeroFloats 0 0
    (by decide) (by decide) (by decide) (by decide) (by decide) (by decide)
  norm_num [Sample, stepBuffer] at h
  exact h

/-- C3, as stated, fails: on the buffer `128 129` over `128 128` the top parameter stored for
cell `(0, 0)` is `-1`, which is neither in `[0, 1]` nor the sentinel. -/
theorem findIntersections_stores_negative :
    ¬ ((0 ≤ (FindIntersections 2 2 risingBuffer 1 0 zeroFloats).outIntersectionBuffer 0 ∧
          (FindIntersections 2 2 risingBuffer 1 0 zeroFloats).outIntersectionBuffer 0 ≤ 1) ∨
        (FindIntersections 2 2 risingBuffer 1 0 zeroFloats).outIntersectionBuffer 0 = -FLT_MAX) := by
  have h := (findIntersections_cell 2 2 risingBuffer 1 0 zeroFloats 0 0
    (by decide) (by decide) (by decide) (by decide)).1
  norm_num at h
  rw [h, risingBuffer_top]
  norm_num [FLT_MAX]

/-- C3, amended: every scalar that `FindIntersections` stores in the map is the sentinel
`-FLT_MAX` or lies in `[-127, 1]`; a negative quotient is stored as it is. -/
theorem findIntersections_stored_range (width height : Int) (pixels : PixelBuffer)
    (pixelWidth channelOffset : Int) (out : FloatBuffer) (x y : Int)
    (hx0 : 0 ≤ x) (hx : x < width - 1) (hy0 : 0 ≤ y) (hy : y < height - 1) :
    ((FindIntersections width height pixels pixelWidth channelOffset out).outIntersectionBuffer
          ((y * (width - 1) + x) * 2) = -FLT_MAX ∨
      (-127 ≤ (FindIntersections width height pixels pixelWidth channelOffset
            out).outIntersectionBuffer ((y * (width - 1) + x) * 2) ∧
        (FindIntersections width height pixels pixelWidth channelOffset
            out).outIntersectionBuffer ((y * (width - 1) + x) * 2) ≤ 1)) ∧
    ((FindIntersections width height pixels pixelWidth channelOffset out).outIntersectionBuffer
          ((y * (width - 1) + x) * 2 + 1) = -FLT_MAX ∨
      (-127 ≤ (FindIntersections width height pixels pixelWidth channelOffset
            out).outIntersectionBuffer ((y * (width - 1) + x) * 2 + 1) ∧
        (FindIntersections width height pixels pixelWidth channelOffset
            out).outIntersectionBuffer ((y * (width - 1) + x) * 2 + 1) ≤ 1)) := by
  have h := findIntersections_cell width height pixels pixelWidth channelOffset out x y
    hx0 hx hy0 hy
  rw [h.1, h.2]
  exact ⟨crossingParameter_range _ _, crossingParameter_range _ _⟩

theorem findIntersections_stored_range_witness :
    ((FindIntersections 2 2 risingBuffer 1 0 zeroFloats).outIntersectionBuffer
          ((0 * (2 - 1) + 0) * 2) = -FLT_MAX ∨
      (-127 ≤ (FindIntersections 2 2 risingBuffer 1 0 zeroFloats).outIntersectionBuffer
            ((0 * (2 - 1) + 0) * 2) ∧
        (FindIntersections 2 2 risingBuffer 1 0 zeroFloats).outIntersectionBuffer
            ((0 * (2 - 1) + 0) * 2) ≤ 1)) ∧
    ((FindIntersections 2 2 risingBuffer 1 0 zeroFloats).outIntersectionBuffer
          ((0 * (2 - 1) + 0) * 2 + 1) = -FLT_MAX ∨
      (-127 ≤ (FindIntersections 2 2 risingBuffer 1 0 zeroFloats).outIntersectionBuffer
            ((0 * (2 - 1) + 0) * 2 + 1) ∧
        (FindIntersections 2 2 risingBuffer 1 0 zeroFloats).outIntersectionBuffer
            ((0 * (2 - 1) + 0) * 2 + 1) ≤ 1)) :=
  findIntersections_stored_range 2 2 risingBuffer 1 0 zeroFloats 0 0
    (by decide) (by decide) (by decide) (by decide)

/-- C4: when all samples of the channel are equal, in a buffer of at least two columns and two
rows, `FindIntersections` stores the sentinel in both entries of every cell of the map,
reports `0` intersections and returns `false`. -/
theorem findIntersections_uniform (width height : Int) (pixels : PixelBuffer)
    (pixelWidth channelOffset : Int) (out : FloatBuffer) (v : Fin 256)
    (_hw : 2 ≤ width) (_hh : 2 ≤ height)
    (hu : ∀ x y : Int, 0 ≤ x → x < width → 0 ≤ y → y < height →
      Sample width pixels pixelWidth channelOffset x y = v) :
    (∀ x y : Int, 0 ≤ x → x < width - 1 → 0 ≤ y → y < height - 1 →
      (FindIntersections width height pixels pixelWidth channelOffset out).outIntersectionBuffer
          ((y * (width - 1) + x) * 2) = -FLT_MAX ∧
      (FindIntersections width height pixels pixelWidth channelOffset out).outIntersectionBuffer
          ((y * (width - 1) + x) * 2 + 1) = -FLT_MAX) ∧
    (FindIntersections width height pixels pixelWidth channelOffset out).outNumIntersections = 0 ∧
    (FindIntersections width height pixels pixelWidth channelOffset out).found = false := by
  have hm := fltMax_pos
  have htop : ∀ x y : Int, 0 ≤ x → x < width - 1 → 0 ≤ y → y < height - 1 →
      TopParameter width pixels pixelWidth channelOffset x y = -FLT_MAX ∧
      LeftParameter width pixels pixelWidth channelOffset x y = -FLT_MAX := by
    intro x y hx0 hx hy0 hy
    unfold TopParameter LeftParameter
    rw [hu x y hx0 (by omega) hy0 (by omega), hu (x + 1) y (by omega) (by omega) hy0 (by omega),
      hu x (y + 1) hx0 (by omega) (by omega) (by omega)]
    exact ⟨crossingParameter_self v, crossingParameter_self v⟩
  have hcount :
      (FindIntersections width height pixels pixelWidth channelOffset out).outNumIntersections
        = 0 := by
    rw [findIntersections_numFound]
    apply List.sum_eq_zero
    intro n hn
    rw [List.mem_map] at hn
    obtain ⟨c, hc, rfl⟩ := hn
    rw [mem_gridCells] at hc
    have h := htop (c.2 : Int) (c.1 : Int) (Int.ofNat_nonneg _) (by omega) (Int.ofNat_nonneg _)
      (by omega)
    rw [h.1, h.2]
    have hneg : ¬ (0 ≤ -FLT_MAX) := by linarith
    simp only [hneg, if_false, Nat.add_zero]
  refine ⟨?_, hcount, ?_⟩
  · intro x y hx0 hx hy0 hy
    have h := findIntersections_cell width height pixels pixelWidth channelOffset out x y
      hx0 hx hy0 hy
    rw [h.1, h.2]
    exact htop x y hx0 hx hy0 hy
  · rw [findIntersections_found, hcount]
    rfl

theorem findIntersections_uniform_witness :
    (∀ x y : Int, 0 ≤ x → x < 3 - 1 → 0 ≤ y → y < 3 - 1 →
      (FindIntersections 3 3 flatBuffer 1 0 zeroFloats).outIntersectionBuffer
          ((y * (3 - 1) + x) * 2) = -FLT_MAX ∧
      (FindIntersections 3 3 flatBuffer 1 0 zeroFloats).outIntersectionBuffer
          ((y * (3 - 1) + x) * 2 + 1) = -FLT_MAX) ∧
    (FindIntersections 3 3 flatBuffer 1 0 zeroFloats).outNumIntersections = 0 ∧
    (FindIntersections 3 3 flatBuffer 1 0 zeroFloats).found = false :=
  findIntersections_uniform 3 3 flatBuffer 1 0 zeroFloats ⟨200, by decide⟩
    (by decide) (by decide) (fun _ _ _ _ _ _ => rfl)

/-- C5, as stated, fails: on the buffer `0 127` over `0 0` the top parameter of the one cell is
exactly `1`; `FindIntersections` reports one intersection, and no stored parameter lies in
`[0, 1)`. -/
theorem findIntersections_counts_one :
    (FindIntersections 2 2 thresholdBuffer 1 0 zeroFloats).outNumIntersections ≠
      CountStored (fun t => decide (0 ≤ t ∧ t < 1)) (2 - 1) (2 - 1)
        (FindIntersections 2 2 thresholdBuffer 1 0 zeroFloats).outIntersectionBuffer := by
  have hm := fltMax_pos
  have h := findIntersections_cell 2 2 thresholdBuffer 1 0 zeroFloats 0 0
    (by decide) (by decide) (by decide) (by decide)
  rw [thresholdBuffer_top, thresholdBuffer_left] at h
  norm_num at h
  have hg : GridCells (2 - 1 : Int).toNat (2 - 1 : Int).toNat = [(0, 0)] := by decide
  rw [findIntersections_numFound]
  unfold CountStored
  rw [hg]
  simp only [List.map_cons, List.map_nil, List.sum_cons, List.sum_nil, Nat.cast_zero,
    thresholdBuffer_top, thresholdBuffer_left]
  norm_num
  rw [h.1, h.2]
  have hneg : ¬ (0 ≤ -FLT_MAX) := by linarith
  simp [hneg]

/-- C5, amended: the count that `FindIntersections` reports, whose being at least `2` decides
the returned flag, is the number of stored top and left parameters in the closed interval
`[0, 1]`. -/
theorem findIntersections_count_closed (width height : Int) (pixels : PixelBuffer)
    (pixelWidth channelOffset : Int) (out : FloatBuffer) :
    (FindIntersections width height pixels pixelWidth channelOffset out).outNumIntersections =
        CountStored (fun t => decide (0 ≤ t ∧ t ≤ 1)) (height - 1) (width - 1)
          (FindIntersections width height pixels pixelWidth channelOffset
            out).outIntersectionBuffer ∧
      (FindIntersections width height pixels pixelWidth channelOffset out).found =
        decide (2 ≤ (FindIntersections width height pixels pixelWidth channelOffset
          out).outNumIntersections) := by
  refine ⟨?_, findIntersections_found _ _ _ _ _ _⟩
  rw [findIntersections_numFound]
  unfold CountStored
  congr 1
  apply List.map_congr_left
  intro c hc
  rw [mem_gridCells] at hc
  have h := findIntersections_cell width height pixels pixelWidth channelOffset out
    (c.2 : Int) (c.1 : Int) (Int.ofNat_nonneg _) (by omega) (Int.ofNat_nonneg _) (by omega)
  rw [h.1, h.2]
  have h1 := crossingParameter_le_one
    (Sample width pixels pixelWidth channelOffset (c.2 : Int) (c.1 : Int))
    (Sample width pixels pixelWidth channelOffset ((c.2 : Int) + 1) (c.1 : Int))
  have h2 := crossingParameter_le_one
    (Sample width pixels pixelWidth channelOffset (c.2 : Int) (c.1 : Int))
    (Sample width pixels pixelWidth channelOffset (c.2 : Int) ((c.1 : Int) + 1))
  simp only [TopParameter, LeftParameter, h1, h2, and_true, decide_eq_true_eq]

/-! ### Edge extractor -/

/-- Four conditional appends, one after the other, are the concatenation of four optional
points. -/
theorem gather_eq {α : Type} (c1 c2 c3 c4 : Prop) [Decidable c1] [Decidable c2] [Decidable c3]
    [Decidable c4] (p1 p2 p3 p4 : α) :
    (let i0 : List α := []
     let i1 := if c1 then i0 ++ [p1] else i0
     let i2 := if c2 then i1 ++ [p2] else i1
     let i3 := if c3 then i2 ++ [p3] else i2
     let i4 := if c4 then i3 ++ [p4] else i3
     i4) =
      (if c1 then [p1] else []) ++ ((if c2 then [p2] else []) ++
        ((if c3 then [p3] else []) ++ (if c4 then [p4] else []))) := by
  by_cases h1 : c1 <;> by_cases h2 : c2 <;> by_cases h3 : c3 <;> by_cases h4 : c4 <;>
    simp [h1, h2, h3, h4]

/-- The gathered points of a cell, in declarative form: the code admits a top or bottom
parameter that is not negative and a left or right parameter strictly between `0` and `1`,
and a neighbour outside the map gives no point. -/
theorem cellIntersections_eq (intersectionMapHeight intersectionMapWidth : Int)
    (intersectionMap : FloatBuffer) (y x : Int) :
    CellIntersections intersectionMapHeight intersectionMapWidth intersectionMap y x =
      SidePoints (fun t => decide (0 ≤ t)) (fun t => decide (0 < t ∧ t < 1))
        intersectionMapHeight intersectionMapWidth intersectionMap y x := by
  have hneg : ¬ ((-1 : ℚ) ≥ 0) := by norm_num
  have hneg2 : ¬ ((-1 : ℚ) > 0 ∧ (-1 : ℚ) < 1) := by norm_num
  unfold CellIntersections
  refine (gather_eq _ _ _ _ _ _ _ _).trans ?_
  unfold SidePoints
  by_cases h1 : y + 1 < intersectionMapHeight
  · have hb : y < intersectionMapHeight - 1 := by omega
    by_cases h2 : x + 1 < intersectionMapWidth
    · have hr : x < intersectionMapWidth - 1 := by omega
      simp only [hb, hr, h1, h2, if_true, true_and, decide_eq_true_eq, ge_iff_le, gt_iff_lt]
    · have hr : ¬ x < intersectionMapWidth - 1 := by omega
      simp only [hb, hr, h1, h2, if_true, if_false, true_and, false_and, decide_eq_true_eq,
        ge_iff_le, gt_iff_lt, hneg2]
  · have hb : ¬ y < intersectionMapHeight - 1 := by omega
    by_cases h2 : x + 1 < intersectionMapWidth
    · have hr : x < intersectionMapWidth - 1 := by omega
      simp only [hb, hr, h1, h2, if_true, if_false, true_and, false_and, decide_eq_true_eq,
        ge_iff_le, gt_iff_lt, hneg]
    · have hr : ¬ x < intersectionMapWidth - 1 := by omega
      simp only [hb, hr, h1, h2, if_true, if_false, true_and, false_and, decide_eq_true_eq,
        ge_iff_le, gt_iff_lt, hneg, hneg2]

/-- On a map whose top parameters are at most `1`, admitting the parameters that are not
negative is admitting those of `[0, 1]`. -/
theorem sidePoints_closed (acceptVertical : ℚ → Bool)
    (intersectionMapHeight intersectionMapWidth : Int) (intersectionMap : FloatBuffer)
    (y x : Int) (h1 : intersectionMap ((y * intersectionMapWidth + x) * 2) ≤ 1)
    (h2 : y + 1 < intersectionMapHeight →
      intersectionMap (((y + 1) * intersectionMapWidth + x) * 2) ≤ 1) :
    SidePoints (fun t => decide (0 ≤ t)) acceptVertical
        intersectionMapHeight intersectionMapWidth intersectionMap y x =
      SidePoints (fun t => decide (0 ≤ t ∧ t ≤ 1)) acceptVertical
        intersectionMapHeight intersectionMapWidth intersectionMap y x := by
  unfold SidePoints
  by_cases hb : y + 1 < intersectionMapHeight
  · have h3 := h2 hb
    simp only [h1, h3, hb, and_true, true_and]
  · simp only [h1, hb, and_true, false_and]

/-- C6, as stated, fails: on the map that `FindIntersections` builds for the buffer `0 127`
over `0 0`, the top parameter of the one cell is exactly `1`, outside `[0, 1)`, and `FindEdges`
takes the point `(1, 0)` on the top side. -/
theorem findEdges_takes_top_at_one :
    CellIntersections (2 - 1) (2 - 1)
        (FindIntersections 2 2 thresholdBuffer 1 0 zeroFloats).outIntersectionBuffer 0 0 =
        [⟨1, 0⟩] ∧
      CellIntersections (2 - 1) (2 - 1)
        (FindIntersections 2 2 thresholdBuffer 1 0 zeroFloats).outIntersectionBuffer 0 0 ≠
        SidePoints (fun t => decide (0 ≤ t ∧ t < 1)) (fun t => decide (0 < t ∧ t < 1))
          (2 - 1) (2 - 1)
          (FindIntersections 2 2 thresholdBuffer 1 0 zeroFloats).outIntersectionBuffer 0 0 := by
  have hm := fltMax_pos
  have h := findIntersections_cell 2 2 thresholdBuffer 1 0 zeroFloats 0 0
    (by decide) (by decide) (by decide) (by decide)
  rw [thresholdBuffer_top, thresholdBuffer_left] at h
  norm_num at h
  have hneg : ¬ (0 < -FLT_MAX) := by linarith
  rw [cellIntersections_eq]
  unfold SidePoints
  norm_num [h.1, h.2, hneg]

/-- C6, amended: on a map produced by `FindIntersections`, `FindEdges` takes a crossing point
on the top or bottom side of a cell iff the parameter of that side lies in the closed interval
`[0, 1]`, and on the left or right side iff it lies strictly in `(0, 1)`; the bottom parameter
is the top parameter of the cell one row below, the right parameter the left parameter of the
cell one column to the right, and a side whose neighbour cell is outside the map has no
crossing. -/
theorem findEdges_accepts (width height : Int) (pixels : PixelBuffer)
    (pixelWidth channelOffset : Int) (out : FloatBuffer) (x y : Int)
    (hx0 : 0 ≤ x) (hx : x < width - 1) (hy0 : 0 ≤ y) (hy : y < height - 1) :
    CellIntersections (height - 1) (width - 1)
        (FindIntersections width height pixels pixelWidth channelOffset
          out).outIntersectionBuffer y x =
      SidePoints (fun t => decide (0 ≤ t ∧ t ≤ 1)) (fun t => decide (0 < t ∧ t < 1))
        (height - 1) (width - 1)
        (FindIntersections width height pixels pixelWidth channelOffset
          out).outIntersectionBuffer y x := by
  rw [cellIntersections_eq]
  apply sidePoints_closed
  · rw [(findIntersections_cell width height pixels pixelWidth channelOffset out x y
      hx0 hx hy0 hy).1]
    exact crossingParameter_le_one _ _
  · intro hb
    rw [(findIntersections_cell width height pixels pixelWidth channelOffset out x (y + 1)
      hx0 hx (by omega) hb).1]
    exact crossingParameter_le_one _ _

theorem findEdges_accepts_witness :
    CellIntersections (2 - 1) (2 - 1)
        (FindIntersections 2 2 stepBuffer 1 0 zeroFloats).outIntersectionBuffer 0 0 =
      SidePoints (fun t => decide (0 ≤ t ∧ t ≤ 1)) (fun t => decide (0 < t ∧ t < 1))
        (2 - 1) (2 - 1)
        (FindIntersections 2 2 stepBuffer 1 0 zeroFloats).outIntersectionBuffer 0 0 :=
  findEdges_accepts 2 2 stepBuffer 1 0 zeroFloats 0 0
    (by decide) (by decide) (by decide) (by decide)

theorem foldl_append_flatMap {α β : Type} (g : α → List β) (l : List α) (init : List β) :
    l.foldl (fun buf a => buf ++ g a) init = init ++ l.flatMap g := by
  induction l generalizing init with
  | nil => simp
  | cons a l ih => simp [ih, List.flatMap_cons, List.append_assoc]

/-- The edge buffer of `FindEdges` is the concatenation, row by row and column by column, of
what each cell adds. -/
theorem findEdges_eq (intersectionMapHeight intersectionMapWidth : Int)
    (intersectionMap : FloatBuffer) :
    (FindEdges intersectionMapHeight intersectionMapWidth intersectionMap).2 =
      (List.range intersectionMapHeight.toNat).flatMap (fun y =>
        (List.range intersectionMapWidth.toNat).flatMap (fun x =>
          CellEdges (CellIntersections intersectionMapHeight intersectionMapWidth
            intersectionMap (y : Int) (x : Int)))) := by
  dsimp only [FindEdges]
  have hin : ∀ (y : Nat) (buf : List FVector2DFloatType),
      (List.range intersectionMapWidth.toNat).foldl
        (fun buf (x : Nat) => buf ++ CellEdges
          (CellIntersections intersectionMapHeight intersectionMapWidth intersectionMap
            (y : Int) (x : Int))) buf =
      buf ++ (List.range intersectionMapWidth.toNat).flatMap (fun x =>
          CellEdges (CellIntersections intersectionMapHeight intersectionMapWidth
            intersectionMap (y : Int) (x : Int))) := by
    intro y buf
    exact foldl_append_flatMap _ _ _
  simp only [hin]
  rw [foldl_append_flatMap]
  rfl

theorem cellEdges_of_length_lt_two (pts : List FVector2DFloatType) (h : pts.length < 2) :
    CellEdges pts = [] := by
  unfold CellEdges
  have h1 : ¬ pts.length ≥ 2 := by omega
  have h2 : ¬ pts.length = 4 := by omega
  simp only [h1, h2, if_false]

theorem cellEdges_pair (p q : FVector2DFloatType) : CellEdges [p, q] = [p, q] := by
  simp [CellEdges]

theorem cellEdges_triple (p q r : FVector2DFloatType) : CellEdges [p, q, r] = [p, q] := by
  simp [CellEdges]

theorem cellEdges_quad (p q r t : FVector2DFloatType) : CellEdges [p, q, r, t] = [p, q, r, t] := by
  simp [CellEdges]

/-- C7: `FindEdges` goes through the cells row by row and, within a row, column by column, and
appends for each cell what `CellEdges` makes of the crossing points gathered for it, one point
for each side with an accepted crossing, in the order top, bottom, left, right: nothing when
fewer than two sides have an accepted crossing, the one segment joining the two points when
exactly two sides have, and, when all four sides have, two segments, the first from the top
point to the bottom point and the second from the left point to the right point. -/
theorem findEdges_segments (intersectionMapHeight intersectionMapWidth : Int)
    (intersectionMap : FloatBuffer) (y x : Int) :
    (FindEdges intersectionMapHeight intersectionMapWidth intersectionMap).2 =
      (List.range intersectionMapHeight.toNat).flatMap (fun y =>
        (List.range intersectionMapWidth.toNat).flatMap (fun x =>
          CellEdges (CellIntersections intersectionMapHeight intersectionMapWidth
            intersectionMap (y : Int) (x : Int)))) ∧
    CellIntersections intersectionMapHeight intersectionMapWidth intersectionMap y x =
      SidePoints (fun t => decide (0 ≤ t)) (fun t => decide (0 < t ∧ t < 1))
        intersectionMapHeight intersectionMapWidth intersectionMap y x ∧
    ((CellIntersections intersectionMapHeight intersectionMapWidth intersectionMap y x).length < 2 →
      CellEdges (CellIntersections intersectionMapHeight intersectionMapWidth
        intersectionMap y x) = []) ∧
    ((CellIntersections intersectionMapHeight intersectionMapWidth intersectionMap y x).length = 2 →
      ∃ p q, CellIntersections intersectionMapHeight intersectionMapWidth intersectionMap y x
          = [p, q] ∧
        CellEdges (CellIntersections intersectionMapHeight intersectionMapWidth
          intersectionMap y x) = [p, q]) ∧
    (0 ≤ intersectionMap ((y * intersectionMapWidth + x) * 2) →
      y + 1 < intersectionMapHeight →
      0 ≤ intersectionMap (((y + 1) * intersectionMapWidth + x) * 2) →
      0 < intersectionMap ((y * intersectionMapWidth + x) * 2 + 1) →
      intersectionMap ((y * intersectionMapWidth + x) * 2 + 1) < 1 →
      x + 1 < intersectionMapWidth →
      0 < intersectionMap ((y * intersectionMapWidth + (x + 1)) * 2 + 1) →
      intersectionMap ((y * intersectionMapWidth + (x + 1)) * 2 + 1) < 1 →
      CellEdges (CellIntersections intersectionMapHeight intersectionMapWidth
          intersectionMap y x) =
        [⟨x + intersectionMap ((y * intersectionMapWidth + x) * 2), y⟩,
          ⟨x + intersectionMap (((y + 1) * intersectionMapWidth + x) * 2), y + 1⟩,
          ⟨x, y + intersectionMap ((y * intersectionMapWidth + x) * 2 + 1)⟩,
          ⟨x + 1, y + intersectionMap ((y * intersectionMapWidth + (x + 1)) * 2 + 1)⟩]) := by
  refine ⟨findEdges_eq _ _ _, cellIntersections_eq _ _ _ _ _, cellEdges_of_length_lt_two _,
    ?_, ?_⟩
  · intro h
    match hp : CellIntersections intersectionMapHeight intersectionMapWidth intersectionMap y x,
      h with
    | [p, q], _ => exact ⟨p, q, rfl, cellEdges_pair p q⟩
  · intro h1 h2 h3 h4 h5 h6 h7 h8
    rw [cellIntersections_eq]
    unfold SidePoints
    simp only [h1, h2, h3, h4, h5, h6, h7, h8, and_self, decide_True, if_true,
      List.cons_append, List.nil_append]
    exact cellEdges_quad _ _ _ _

theorem findEdges_segments_witness :
    CellEdges (CellIntersections 2 2 halfFloats 0 0) =
      [⟨1 / 2, 0⟩, ⟨1 / 2, 1⟩, ⟨0, 1 / 2⟩, ⟨1, 1 / 2⟩] := by
  have h := (findEdges_segments 2 2 halfFloats 0 0).2.2.2.2
    (by norm_num [halfFloats]) (by decide) (by norm_num [halfFloats])
    (by norm_num [halfFloats]) (by norm_num [halfFloats]) (by decide)
    (by norm_num [halfFloats]) (by norm_num [halfFloats])
  norm_num [halfFloats] at h
  exact h

/-! ### Distance field renderer -/

theorem tmod_of_nonneg (i w : Int) (hi : 0 ≤ i) : i.tmod w = i % w := by
  obtain ⟨n, rfl⟩ := Int.eq_ofNat_of_zero_le hi
  cases w with
  | ofNat m => rfl
  | negSucc m => rfl

theorem tdiv_of_nonneg (i w : Int) (hi : 0 ≤ i) : i.tdiv w = i / w := by
  obtain ⟨n, rfl⟩ := Int.eq_ofNat_of_zero_le hi
  cases w with
  | ofNat m => rfl
  | negSucc m => rfl

theorem sourcePos_eq (sourceWidth sourceHeight sdfWidth sdfHeight i : Int) (hi : 0 ≤ i) :
    SourcePos sourceWidth sourceHeight sdfWidth sdfHeight i =
      TransformPos sdfWidth sdfHeight sourceWidth sourceHeight
        ⟨((i % sdfWidth : Int) : ℚ), ((i / sdfWidth : Int) : ℚ)⟩ := by
  unfold SourcePos FVector2DFloatType.ofInts
  rw [tmod_of_nonneg i sdfWidth hi, tdiv_of_nonneg i sdfWidth hi]

theorem getAbsMax_sub (p a : FVector2DFloatType) : (p.sub a).GetAbsMax = Chebyshev p a := rfl

theorem distSquared_nonneg (a b : FVector2DFloatType) : 0 ≤ FVector2DFloatType.DistSquared a b := by
  unfold FVector2DFloatType.DistSquared
  nlinarith [mul_self_nonneg (b.X - a.X), mul_self_nonneg (b.Y - a.Y)]

theorem edgeTest_le (a b p : FVector2DFloatType) (d : ℚ) : EdgeTest a b p d ≤ d := by
  unfold EdgeTest
  dsimp only
  split_ifs with h
  · exact le_of_lt h
  · exact le_refl _

theorem edgeTest_le_dist (a b p : FVector2DFloatType) (d : ℚ) :
    EdgeTest a b p d ≤ FVector2DFloatType.DistSquared p (ClosestPointOnSegment2D p a b) := by
  unfold EdgeTest
  dsimp only
  split_ifs with h
  · exact le_refl _
  · exact not_lt.mp h

theorem edgeTest_cases (a b p : FVector2DFloatType) (d : ℚ) :
    EdgeTest a b p d = d ∨
      EdgeTest a b p d = FVector2DFloatType.DistSquared p (ClosestPointOnSegment2D p a b) := by
  unfold EdgeTest
  dsimp only
  split_ifs with h
  · exact Or.inr rfl
  · exact Or.inl rfl

/-- The point that `ClosestPointOnSegment2D` returns lies on the closed segment. -/
theorem closestPoint_on_segment (p a b : FVector2DFloatType) :
    ∃ t : ℚ, 0 ≤ t ∧ t ≤ 1 ∧ ClosestPointOnSegment2D p a b = SegmentPoint a b t := by
  unfold ClosestPointOnSegment2D
  dsimp only
  split_ifs with h1 h2
  · refine ⟨0, le_refl _, zero_le_one, ?_⟩
    simp [SegmentPoint]
  · refine ⟨1, zero_le_one, le_refl _, ?_⟩
    simp [SegmentPoint]
  · have hd1 : 0 < (p.sub a).dot (b.sub a) := not_le.mp h1
    have hd2 : (p.sub a).dot (b.sub a) < (b.sub a).dot (b.sub a) := not_le.mp h2
    have hd : 0 < (b.sub a).dot (b.sub a) := lt_trans hd1 hd2
    refine ⟨(p.sub a).dot (b.sub a) / (b.sub a).dot (b.sub a), ?_, ?_, ?_⟩
    · exact le_of_lt (div_pos hd1 hd)
    · rw [div_le_one hd]
      exact le_of_lt hd2
    · simp only [SegmentPoint, FVector2DFloatType.add, FVector2DFloatType.mulScalar,
        FVector2DFloatType.sub]
      congr 1 <;> ring

/-- No point of the closed segment is nearer to `p` than the point that
`ClosestPointOnSegment2D` returns. -/
theorem closestPoint_le (p a b : FVector2DFloatType) (t : ℚ) (ht0 : 0 ≤ t) (ht1 : t ≤ 1) :
    FVector2DFloatType.DistSquared p (ClosestPointOnSegment2D p a b) ≤
      FVector2DFloatType.DistSquared p (SegmentPoint a b t) := by
  obtain ⟨px, py⟩ := p
  obtain ⟨ax, ay⟩ := a
  obtain ⟨bx, cy⟩ := b
  unfold ClosestPointOnSegment2D
  dsimp only
  simp only [FVector2DFloatType.sub, FVector2DFloatType.dot, FVector2DFloatType.add,
    FVector2DFloatType.mulScalar, FVector2DFloatType.DistSquared, SegmentPoint]
  split_ifs with h1 h2
  · nlinarith [mul_nonneg ht0 (neg_nonneg.mpr h1),
      mul_self_nonneg (t * (bx - ax)), mul_self_nonneg (t * (cy - ay))]
  · have h3 : 0 ≤ 1 - t := by linarith
    have hd2 : 0 ≤ (bx - ax) * (bx - ax) + (cy - ay) * (cy - ay) := by
      nlinarith [mul_self_nonneg (bx - ax), mul_self_nonneg (cy - ay)]
    nlinarith [mul_nonneg h3 (sub_nonneg.mpr h2), mul_nonneg (mul_nonneg h3 h3) hd2]
  · have hd1 : 0 < (px - ax) * (bx - ax) + (py - ay) * (cy - ay) := not_le.mp h1
    have hd : 0 < (bx - ax) * (bx - ax) + (cy - ay) * (cy - ay) := by linarith
    have key : ∀ u : ℚ,
        (ax + u * (bx - ax) - px) * (ax + u * (bx - ax) - px) +
          (ay + u * (cy - ay) - py) * (ay + u * (cy - ay) - py) =
        ((px - ax) * (px - ax) + (py - ay) * (py - ay)) -
          2 * u * ((px - ax) * (bx - ax) + (py - ay) * (cy - ay)) +
          u * u * ((bx - ax) * (bx - ax) + (cy - ay) * (cy - ay)) := by
      intro u
      ring
    have e1 : ax + (bx - ax) * (((px - ax) * (bx - ax) + (py - ay) * (cy - ay)) /
        ((bx - ax) * (bx - ax) + (cy - ay) * (cy - ay))) =
        ax + (((px - ax) * (bx - ax) + (py - ay) * (cy - ay)) /
        ((bx - ax) * (bx - ax) + (cy - ay) * (cy - ay))) * (bx - ax) := by ring
    have e2 : ay + (cy - ay) * (((px - ax) * (bx - ax) + (py - ay) * (cy - ay)) /
        ((bx - ax) * (bx - ax) + (cy - ay) * (cy - ay))) =
        ay + (((px - ax) * (bx - ax) + (py - ay) * (cy - ay)) /
        ((bx - ax) * (bx - ax) + (cy - ay) * (cy - ay))) * (cy - ay) := by ring
    rw [e1, e2, key, key]
    generalize (px - ax) * (px - ax) + (py - ay) * (py - ay) = V
    generalize hD1 : (px - ax) * (bx - ax) + (py - ay) * (cy - ay) = D1 at hd1
    generalize hD2 : (bx - ax) * (bx - ax) + (cy - ay) * (cy - ay) = D2 at hd
    have hq : D1 / D2 * D2 = D1 := div_mul_cancel₀ _ (ne_of_gt hd)
    generalize D1 / D2 = q at hq
    have h3 : t * q * D2 = t * D1 := by rw [mul_assoc, hq]
    have h4 : q * q * D2 = q * D1 := by rw [mul_assoc, hq]
    have h5 := mul_nonneg (le_of_lt hd) (mul_self_nonneg (t - q))
    nlinarith [h3, h4, h5]

/-- The squared distance to the point that `ClosestPointOnSegment2D` returns is the squared
distance to the closed segment. -/
theorem closestPoint_isSegmentDistSq (p a b : FVector2DFloatType) :
    IsSegmentDistSq p a b
      (FVector2DFloatType.DistSquared p (ClosestPointOnSegment2D p a b)) := by
  constructor
  · obtain ⟨t, h0, h1, h⟩ := closestPoint_on_segment p a b
    exact ⟨t, h0, h1, by rw [h]⟩
  · rintro e ⟨t, h0, h1, rfl⟩
    exact closestPoint_le p a b t h0 h1

theorem isSegmentDistSq_iff (p a b : FVector2DFloatType) (d : ℚ) :
    IsSegmentDistSq p a b d ↔
      d = FVector2DFloatType.DistSquared p (ClosestPointOnSegment2D p a b) :=
  ⟨fun h => h.unique (closestPoint_isSegmentDistSq p a b),
    fun h => h ▸ closestPoint_isSegmentDistSq p a b⟩

/-- The edge loop leaves the least of the starting value and the squared distances to the
segments that pass the bounding-box test. -/
theorem edgeLoop_isLeast (p : FVector2DFloatType) (half : ℚ) :
    ∀ (edges : List FVector2DFloatType) (init : ℚ),
      IsLeast {d : ℚ | d = init ∨ ∃ s ∈ Segments edges,
          Chebyshev p s.1 ≤ half ∧ Chebyshev p s.2 ≤ half ∧
          d = FVector2DFloatType.DistSquared p (ClosestPointOnSegment2D p s.1 s.2)}
        (EdgeLoop p half edges init)
  | [], init => by
    constructor
    · exact Or.inl (by simp [EdgeLoop])
    · rintro d (rfl | ⟨s, hs, _⟩)
      · simp [EdgeLoop]
      · simp [Segments] at hs
  | [_], init => by
    constructor
    · exact Or.inl (by simp [EdgeLoop])
    · rintro d (rfl | ⟨s, hs, _⟩)
      · simp [EdgeLoop]
      · simp [Segments] at hs
  | a :: b :: rest, init => by
    have ih := edgeLoop_isLeast p half rest
      (if (p.sub a).GetAbsMax ≤ half ∧ (p.sub b).GetAbsMax ≤ half
        then EdgeTest a b p init else init)
    have hstep : EdgeLoop p half (a :: b :: rest) init = EdgeLoop p half rest
      (if (p.sub a).GetAbsMax ≤ half ∧ (p.sub b).GetAbsMax ≤ half
        then EdgeTest a b p init else init) := by
      simp [EdgeLoop]
    rw [hstep]
    obtain ⟨hmem, hlow⟩ := ih
    by_cases hw : (p.sub a).GetAbsMax ≤ half ∧ (p.sub b).GetAbsMax ≤ half
    · simp only [hw, and_self, if_true] at hmem hlow ⊢
      constructor
      · rcases hmem with h | ⟨s, hs, h1, h2, h3⟩
        · rcases edgeTest_cases a b p init with h4 | h4
          · exact Or.inl (h.trans h4)
          · exact Or.inr ⟨(a, b), by simp [Segments], hw.1, hw.2, h.trans h4⟩
        · exact Or.inr ⟨s, by simp [Segments, hs], h1, h2, h3⟩
      · rintro d (rfl | ⟨s, hs, h1, h2, h3⟩)
        · exact le_trans (hlow (Or.inl rfl)) (edgeTest_le a b p _)
        · simp only [Segments, List.mem_cons] at hs
          rcases hs with rfl | hs
          · rw [h3]
            exact le_trans (hlow (Or.inl rfl)) (edgeTest_le_dist a b p init)
          · exact hlow (Or.inr ⟨s, hs, h1, h2, h3⟩)
    · simp only [hw, if_false] at hmem hlow ⊢
      constructor
      · rcases hmem with h | ⟨s, hs, h1, h2, h3⟩
        · exact Or.inl h
        · exact Or.inr ⟨s, by simp [Segments, hs], h1, h2, h3⟩
      · rintro d (rfl | ⟨s, hs, h1, h2, h3⟩)
        · exact hlow (Or.inl rfl)
        · simp only [Segments, List.mem_cons] at hs
          rcases hs with rfl | hs
          · exact absurd ⟨h1, h2⟩ hw
          · exact hlow (Or.inr ⟨s, hs, h1, h2, h3⟩)

/-- The edge loop leaves the least of the starting value and the squared distances from `p`
to the segments that pass the bounding-box test. -/
theorem edgeLoop_isLeast_segments (p : FVector2DFloatType) (half : ℚ)
    (edges : List FVector2DFloatType) (init : ℚ) :
    IsLeast {d : ℚ | d = init ∨ ∃ s ∈ Segments edges,
        Chebyshev p s.1 ≤ half ∧ Chebyshev p s.2 ≤ half ∧ IsSegmentDistSq p s.1 s.2 d}
      (EdgeLoop p half edges init) := by
  have h := edgeLoop_isLeast p half edges init
  have hset : {d : ℚ | d = init ∨ ∃ s ∈ Segments edges,
        Chebyshev p s.1 ≤ half ∧ Chebyshev p s.2 ≤ half ∧ IsSegmentDistSq p s.1 s.2 d} =
      {d : ℚ | d = init ∨ ∃ s ∈ Segments edges,
        Chebyshev p s.1 ≤ half ∧ Chebyshev p s.2 ≤ half ∧
        d = FVector2DFloatType.DistSquared p (ClosestPointOnSegment2D p s.1 s.2)} := by
    ext d
    simp only [Set.mem_setOf_eq, isSegmentDistSq_iff]
  rw [hset]
  exact h

theorem largestUpTo_le (p : Nat → Bool) (n : Nat) : LargestUpTo p n ≤ n := by
  induction n with
  | zero => simp [LargestUpTo]
  | succ n ih =>
    unfold LargestUpTo
    split
    · exact le_refl _
    · exact Nat.le_succ_of_le ih

/-- When `p n` says that `n` is at most `m`, the search returns `m` clamped to `[0, k]`. -/
theorem largestUpTo_eq (p : Nat → Bool) (m : Int) (hp : ∀ n : Nat, p n = true ↔ (n : Int) ≤ m)
    (k : Nat) : ((LargestUpTo p k : Nat) : Int) = max (min m (k : Int)) 0 := by
  induction k with
  | zero =>
    simp only [LargestUpTo]
    omega
  | succ k ih =>
    unfold LargestUpTo
    by_cases h : p (k + 1) = true
    · have h2 := (hp (k + 1)).mp h
      simp only [h, if_true]
      push_cast at h2 ⊢
      omega
    · have h2 : ¬ (((k + 1 : Nat) : Int) ≤ m) := fun h3 => h ((hp (k + 1)).mpr h3)
      simp only [h, Bool.false_eq_true, if_false]
      rw [ih]
      push_cast at h2 ⊢
      omega

/-- The comparison on squares decides the comparison with the square root. -/
theorem sqrtReaches_iff (positive : Bool) (r a : ℚ) (hr : 0 ≤ r) :
    SqrtReaches positive r a = true ↔
      (a : ℝ) ≤ (if positive then Real.sqrt (r : ℝ) else -Real.sqrt (r : ℝ)) := by
  have hrR : (0 : ℝ) ≤ (r : ℝ) := by exact_mod_cast hr
  have hs := Real.sqrt_nonneg (r : ℝ)
  have hcast : (a * a ≤ r) ↔ ((a : ℝ) ^ 2 ≤ (r : ℝ)) := by
    rw [pow_two]
    exact_mod_cast Iff.rfl
  have hcast2 : (r ≤ a * a) ↔ ((r : ℝ) ≤ (-(a : ℝ)) ^ 2) := by
    rw [neg_sq, pow_two]
    exact_mod_cast Iff.rfl
  have hle : (a ≤ 0) ↔ ((a : ℝ) ≤ 0) := by exact_mod_cast Iff.rfl
  cases positive with
  | true =>
    simp only [SqrtReaches, if_true, decide_eq_true_eq]
    rw [hcast, hle]
    constructor
    · rintro (h | h)
      · linarith
      · by_cases h0 : (a : ℝ) ≤ 0
        · linarith
        · exact (Real.le_sqrt' (not_le.mp h0)).mpr h
    · intro h
      by_cases h0 : (a : ℝ) ≤ 0
      · exact Or.inl h0
      · exact Or.inr ((Real.le_sqrt' (not_le.mp h0)).mp h)
  | false =>
    simp only [SqrtReaches, Bool.false_eq_true, if_false, decide_eq_true_eq]
    rw [hcast2, hle]
    constructor
    · rintro ⟨h1, h2⟩
      have h3 : Real.sqrt (r : ℝ) ≤ -(a : ℝ) := Real.sqrt_le_iff.mpr ⟨by linarith, h2⟩
      linarith
    · intro h
      have h3 : Real.sqrt (r : ℝ) ≤ -(a : ℝ) := by linarith
      have h4 := Real.sqrt_le_iff.mp h3
      exact ⟨by linarith [h4.1], h4.2⟩

/-- The level that `QuantizeLevel` finds is the source expression
`Clamp (FloorToInt ((signedDist / fieldDistance + 0.5) * 255), 0, 255)` evaluated over the
reals, with `signedDist` the square root of `currDistSq` or its opposite. -/
theorem quantizeLevel_real (currDistSq : ℚ) (positive : Bool) (fieldDistance : ℚ)
    (hq : 0 ≤ currDistSq) (hF : 0 < fieldDistance) :
    QuantizeLevel currDistSq positive fieldDistance =
      max (min ⌊((if positive then Real.sqrt (currDistSq : ℝ) else -Real.sqrt (currDistSq : ℝ))
        / (fieldDistance : ℝ) + 1 / 2) * 255⌋ 255) 0 := by
  have hFR : (0 : ℝ) < (fieldDistance : ℝ) := by exact_mod_cast hF
  have hqR : (0 : ℝ) ≤ (currDistSq : ℝ) := by exact_mod_cast hq
  have hnF : ¬ fieldDistance < 0 := not_lt.mpr (le_of_lt hF)
  have hr : 0 ≤ currDistSq / (fieldDistance * fieldDistance) :=
    div_nonneg hq (mul_nonneg (le_of_lt hF) (le_of_lt hF))
  have hsq : Real.sqrt ((currDistSq / (fieldDistance * fieldDistance) : ℚ) : ℝ) =
      Real.sqrt (currDistSq : ℝ) / (fieldDistance : ℝ) := by
    push_cast
    rw [Real.sqrt_div hqR, Real.sqrt_mul_self (le_of_lt hFR)]
  unfold QuantizeLevel
  simp only [hnF, decide_False, Bool.xor_false]
  have h := largestUpTo_eq
    (fun n => SqrtReaches positive (currDistSq / (fieldDistance * fieldDistance))
      ((n : ℚ) / 255 - 1 / 2))
    ⌊((if positive then Real.sqrt (currDistSq : ℝ) else -Real.sqrt (currDistSq : ℝ))
        / (fieldDistance : ℝ) + 1 / 2) * 255⌋
    (by
      intro n
      rw [sqrtReaches_iff _ _ _ hr, Int.le_floor, hsq]
      push_cast
      cases positive with
      | true =>
        simp only [if_true]
        constructor <;> intro h <;> linarith
      | false =>
        simp only [Bool.false_eq_true, if_false, neg_div]
        constructor <;> intro h <;> linarith)
    255
  exact_mod_cast h

theorem quantizeLevel_range (currDistSq : ℚ) (positive : Bool) (fieldDistance : ℚ) :
    0 ≤ QuantizeLevel currDistSq positive fieldDistance ∧
      QuantizeLevel currDistSq positive fieldDistance < 256 := by
  unfold QuantizeLevel
  have h := largestUpTo_le
    (fun n => SqrtReaches (xor positive (decide (fieldDistance < 0)))
      (currDistSq / (fieldDistance * fieldDistance)) ((n : ℚ) / 255 - 1 / 2)) 255
  dsimp only
  omega

theorem toUInt8_of_range (n : Int) (h0 : 0 ≤ n) (h1 : n < 256) : ((toUInt8 n).val : Int) = n := by
  simp only [toUInt8]
  omega

/-- A loop that stores `value k` at offset `k * stride + offset` for `k = 0, .., n - 1`, with a
stride that is not zero, leaves `value k` at the offset of `k`. -/
theorem foldl_store_written {α : Type} (value : Nat → α) (stride offset : Int)
    (hstride : stride ≠ 0) (init : Int → α) (n k : Nat) (hk : k < n) :
    ((List.range n).foldl
        (fun out (i : Nat) => store out ((i : Int) * stride + offset) (value i)) init)
      ((k : Int) * stride + offset) = value k := by
  induction n with
  | zero => omega
  | succ n ih =>
    rw [List.range_succ, List.foldl_append]
    simp only [List.foldl_cons, List.foldl_nil]
    by_cases hkn : k = n
    · subst hkn
      exact store_same _ _ _
    · rw [store_other]
      · exact ih (by omega)
      · intro h
        have h2 : (k : Int) * stride = (n : Int) * stride := by omega
        have h3 : (k : Int) = (n : Int) := mul_right_cancel₀ hstride h2
        exact hkn (by exact_mod_cast h3)

/-- A loop of stores at the offsets `k * stride + offset` leaves every other offset as it
was. -/
theorem foldl_store_untouched {α : Type} (value : Nat → α) (stride offset : Int)
    (init : Int → α) (n : Nat) (j : Int)
    (hj : ∀ k : Nat, k < n → j ≠ (k : Int) * stride + offset) :
    ((List.range n).foldl
        (fun out (i : Nat) => store out ((i : Int) * stride + offset) (value i)) init) j =
      init j := by
  induction n with
  | zero => rfl
  | succ n ih =>
    rw [List.range_succ, List.foldl_append]
    simp only [List.foldl_cons, List.foldl_nil]
    rw [store_other _ _ _ _ (hj n (by omega))]
    exact ih (fun k hk => hj k (by omega))

/-- The byte of output pixel `i` in the buffer that `CreateDistanceField` returns, for a
stride that is not zero. -/
theorem createDistanceField_at (sourceWidth sourceHeight sdfWidth sdfHeight : Int)
    (pixels : PixelBuffer) (pixelWidth channelOffset : Int) (fieldDistance : ℚ)
    (invertDistance : Bool) (intersectionMap : FloatBuffer) (outPixelBuffer : PixelBuffer)
    (i : Int) (hi0 : 0 ≤ i) (hi : i < sdfWidth * sdfHeight) (hpw : pixelWidth ≠ 0) :
    CreateDistanceField sourceWidth sourceHeight sdfWidth sdfHeight pixels pixelWidth
        channelOffset fieldDistance invertDistance intersectionMap outPixelBuffer
        (i * pixelWidth + channelOffset) =
      SdfMip sourceWidth sourceHeight sdfWidth sdfHeight pixels pixelWidth channelOffset
        fieldDistance invertDistance
        (FindEdges (sourceHeight - 1) (sourceWidth - 1) intersectionMap).2 i := by
  dsimp only [CreateDistanceField]
  have h := foldl_store_written
    (fun k : Nat => SdfMip sourceWidth sourceHeight sdfWidth sdfHeight pixels pixelWidth
      channelOffset fieldDistance invertDistance
      (FindEdges (sourceHeight - 1) (sourceWidth - 1) intersectionMap).2 (k : Int))
    pixelWidth channelOffset hpw outPixelBuffer (sdfWidth * sdfHeight).toNat i.toNat (by omega)
  simp only [Int.toNat_of_nonneg hi0] at h
  exact h

/-- The byte that the loop body of `CreateDistanceField` computes for output pixel `i`. -/
theorem sdfMip_real (sourceWidth sourceHeight sdfWidth sdfHeight : Int)
    (pixels : PixelBuffer) (pixelWidth channelOffset : Int) (fieldDistance : ℚ)
    (invertDistance : Bool) (edgeBuffer : List FVector2DFloatType) (i : Int)
    (hF : 0 < fieldDistance) :
    0 ≤ PixelDistSq sourceWidth sourceHeight sdfWidth sdfHeight fieldDistance edgeBuffer i ∧
    (((SdfMip sourceWidth sourceHeight sdfWidth sdfHeight pixels pixelWidth channelOffset
        fieldDistance invertDistance edgeBuffer i).val : Int) =
      max (min ⌊((if xor (PixelOutside sourceWidth sourceHeight sdfWidth sdfHeight pixels
            pixelWidth channelOffset i) invertDistance then (1 : ℝ) else -1) *
          Real.sqrt ((PixelDistSq sourceWidth sourceHeight sdfWidth sdfHeight fieldDistance
            edgeBuffer i : ℚ) : ℝ) / (fieldDistance : ℝ) + 1 / 2) * 255⌋ 255) 0) := by
  have hq : 0 ≤ PixelDistSq sourceWidth sourceHeight sdfWidth sdfHeight fieldDistance
      edgeBuffer i := by
    have h := (edgeLoop_isLeast
      (SourcePos sourceWidth sourceHeight sdfWidth sdfHeight i) (fieldDistance * (1 / 2))
      edgeBuffer (fieldDistance * (1 / 2) * (fieldDistance * (1 / 2)))).1
    rcases h with h | ⟨s, _, _, _, h⟩
    · unfold PixelDistSq
      dsimp only
      rw [h]
      exact mul_self_nonneg _
    · unfold PixelDistSq
      dsimp only
      rw [h]
      exact distSquared_nonneg _ _
  refine ⟨hq, ?_⟩
  unfold SdfMip
  dsimp only
  have hrange := quantizeLevel_range
    (PixelDistSq sourceWidth sourceHeight sdfWidth sdfHeight fieldDistance edgeBuffer i)
    (xor (PixelOutside sourceWidth sourceHeight sdfWidth sdfHeight pixels pixelWidth
      channelOffset i) invertDistance) fieldDistance
  rw [toUInt8_of_range _ hrange.1 hrange.2, quantizeLevel_real _ _ _ hq hF]
  cases xor (PixelOutside sourceWidth sourceHeight sdfWidth sdfHeight pixels pixelWidth
      channelOffset i) invertDistance with
  | true => simp only [if_true, one_mul]
  | false => simp only [Bool.false_eq_true, if_false, neg_one_mul]

/-- The value of a pixel when the output buffer is not the source buffer, in exact real
arithmetic: for `fieldDistance > 0` and an output pixel index `i` in `[0, sdfWidth * sdfHeight)`,
with `p` the image of `(i mod sdfWidth, i div sdfWidth)` under `TransformPos`, the loop body of
`CreateDistanceField` computes the byte `clamp (floor ((s * d / fieldDistance + 1/2) * 255), 0, 255)`,
where `d ^ 2` is the least of `(fieldDistance / 2) ^ 2` and the squared distances from `p` to the
closed segment for each segment of the edge list with both endpoints within Chebyshev distance
`fieldDistance / 2` of `p`, and `s` is `+1` when `(ComputePixelValue p < 127) xor invertDistance`
and `-1` otherwise; the returned buffer holds that byte at `i * pixelWidth + channelOffset`
(the stride being other than zero).  The square root is the one of the reals. -/
theorem createDistanceField_value (sourceWidth sourceHeight sdfWidth sdfHeight : Int)
    (pixels : PixelBuffer) (pixelWidth channelOffset : Int) (fieldDistance : ℚ)
    (invertDistance : Bool) (intersectionMap : FloatBuffer) (outPixelBuffer : PixelBuffer)
    (i : Int) (p : FVector2DFloatType)
    (hF : 0 < fieldDistance) (hi0 : 0 ≤ i) (hi : i < sdfWidth * sdfHeight)
    (hp : p = TransformPos sdfWidth sdfHeight sourceWidth sourceHeight
      ⟨((i % sdfWidth : Int) : ℚ), ((i / sdfWidth : Int) : ℚ)⟩) :
    ∃ d2 : ℚ,
      IsLeast {d : ℚ | d = (fieldDistance / 2) ^ 2 ∨
          ∃ s ∈ Segments (FindEdges (sourceHeight - 1) (sourceWidth - 1) intersectionMap).2,
            Chebyshev p s.1 ≤ fieldDistance / 2 ∧ Chebyshev p s.2 ≤ fieldDistance / 2 ∧
            IsSegmentDistSq p s.1 s.2 d} d2 ∧
      (((SdfMip sourceWidth sourceHeight sdfWidth sdfHeight pixels pixelWidth channelOffset
          fieldDistance invertDistance
          (FindEdges (sourceHeight - 1) (sourceWidth - 1) intersectionMap).2 i).val : Int) =
        max (min ⌊((if xor (decide ((ComputePixelValue p sourceWidth sourceHeight pixels
              pixelWidth channelOffset).val < 127)) invertDistance then (1 : ℝ) else -1) *
            Real.sqrt (d2 : ℝ) / (fieldDistance : ℝ) + 1 / 2) * 255⌋ 255) 0) ∧
      (pixelWidth ≠ 0 →
        CreateDistanceField sourceWidth sourceHeight sdfWidth sdfHeight pixels pixelWidth
            channelOffset fieldDistance invertDistance intersectionMap outPixelBuffer
            (i * pixelWidth + channelOffset) =
          SdfMip sourceWidth sourceHeight sdfWidth sdfHeight pixels pixelWidth channelOffset
            fieldDistance invertDistance
            (FindEdges (sourceHeight - 1) (sourceWidth - 1) intersectionMap).2 i) := by
  have hhalf : fieldDistance * (1 / 2) = fieldDistance / 2 := by ring
  have hinit : fieldDistance * (1 / 2) * (fieldDistance * (1 / 2)) = (fieldDistance / 2) ^ 2 := by
    ring
  have hpos : SourcePos sourceWidth sourceHeight sdfWidth sdfHeight i = p := by
    rw [sourcePos_eq _ _ _ _ _ hi0, hp]
  have hd : PixelDistSq sourceWidth sourceHeight sdfWidth sdfHeight fieldDistance
      (FindEdges (sourceHeight - 1) (sourceWidth - 1) intersectionMap).2 i =
      EdgeLoop p (fieldDistance / 2)
        (FindEdges (sourceHeight - 1) (sourceWidth - 1) intersectionMap).2
        ((fieldDistance / 2) ^ 2) := by
    unfold PixelDistSq
    dsimp only
    rw [hinit, hhalf, hpos]
  have ho : PixelOutside sourceWidth sourceHeight sdfWidth sdfHeight pixels pixelWidth
      channelOffset i =
      decide ((ComputePixelValue p sourceWidth sourceHeight pixels pixelWidth
        channelOffset).val < 127) := by
    unfold PixelOutside
    dsimp only
    rw [hpos]
  refine ⟨EdgeLoop p (fieldDistance / 2)
    (FindEdges (sourceHeight - 1) (sourceWidth - 1) intersectionMap).2
    ((fieldDistance / 2) ^ 2), edgeLoop_isLeast_segments p (fieldDistance / 2) _ _, ?_, ?_⟩
  · have h := (sdfMip_real sourceWidth sourceHeight sdfWidth sdfHeight pixels pixelWidth
      channelOffset fieldDistance invertDistance
      (FindEdges (sourceHeight - 1) (sourceWidth - 1) intersectionMap).2 i hF).2
    rw [hd, ho] at h
    exact h
  · intro hpw
    exact createDistanceField_at sourceWidth sourceHeight sdfWidth sdfHeight pixels pixelWidth
      channelOffset fieldDistance invertDistance intersectionMap outPixelBuffer i hi0 hi hpw

theorem createDistanceField_value_witness :
    ∃ d2 : ℚ,
      (((SdfMip 2 2 2 2 stepBuffer 1 0 2 false (FindEdges (2 - 1) (2 - 1) halfFloats).2 3).val
          : Int) =
        max (min ⌊((if xor (decide ((ComputePixelValue
              (TransformPos ((2 : Int) : ℚ) ((2 : Int) : ℚ) ((2 : Int) : ℚ) ((2 : Int) : ℚ)
                ⟨((3 % 2 : Int) : ℚ), ((3 / 2 : Int) : ℚ)⟩) 2 2 stepBuffer 1 0).val < 127)) false
            then (1 : ℝ) else -1) *
            Real.sqrt (d2 : ℝ) / ((2 : ℚ) : ℝ) + 1 / 2) * 255⌋ 255) 0) ∧
      CreateDistanceField 2 2 2 2 stepBuffer 1 0 2 false halfFloats flatBuffer (3 * 1 + 0) =
        SdfMip 2 2 2 2 stepBuffer 1 0 2 false (FindEdges (2 - 1) (2 - 1) halfFloats).2 3 := by
  obtain ⟨d2, _, h2, h3⟩ := createDistanceField_value 2 2 2 2 stepBuffer 1 0 2 false halfFloats
    flatBuffer 3 _ (by norm_num) (by decide) (by decide) rfl
  exact ⟨d2, h2, h3 (by decide)⟩

/-! ### The sampler on a buffer that is taller than wide -/

theorem tallBuffer_found : (FindIntersections 2 3 tallBuffer 1 0 zeroFloats).found = true := by
  have hg : GridCells (3 - 1 : Int).toNat (2 - 1 : Int).toNat = [(0, 0), (1, 0)] := by decide
  have h1 : TopParameter 2 tallBuffer 1 0 0 0 = 127 / 255 := by
    norm_num [TopParameter, Sample, CrossingParameter, tallBuffer, Fin.ext_iff]
  have h2 : TopParameter 2 tallBuffer 1 0 0 1 = 127 / 255 := by
    norm_num [TopParameter, Sample, CrossingParameter, tallBuffer, Fin.ext_iff]
  rw [findIntersections_found, findIntersections_numFound, hg]
  simp only [List.map_cons, List.map_nil, List.sum_cons, List.sum_nil, Nat.cast_zero,
    Nat.cast_one, decide_eq_true_eq]
  rw [h1, h2]
  have hpos : (0 : ℚ) ≤ 127 / 255 := by norm_num
  simp only [hpos, if_true]
  omega

/-- C9, at the failing input: in the buffer of two columns and three rows with the samples
`0 255`, `0 255`, `255 255`, the sampler, asked for the integer position `(0, 2)`, returns `0`,
the sample of `(0, 1)`, and not the sample `255` of `(0, 2)`: the row is clamped with the
width.  The buffer is one that the importer does render: `FindIntersections` succeeds on
it. -/
theorem computePixelValue_tall_buffer :
    ComputePixelValue ⟨0, 2⟩ 2 3 tallBuffer 1 0 = ⟨0, by decide⟩ ∧
      Sample 2 tallBuffer 1 0 0 2 = ⟨255, by decide⟩ ∧
      Sample 2 tallBuffer 1 0 0 1 = ⟨0, by decide⟩ ∧
      (FindIntersections 2 3 tallBuffer 1 0 zeroFloats).found = true := by
  refine ⟨?_, ?_, ?_, tallBuffer_found⟩
  · have h : ClampedPos ⟨0, 2⟩ 2 = ⟨0, 1⟩ := by
      simp only [ClampedPos, FMath.Clamp]
      norm_num
    simp only [ComputePixelValue, h, FMath.FloorToInt, Int.floor_zero, Int.floor_one]
    norm_num [tallBuffer, FMath.RoundToInt, FMath.FloorToInt, toUInt8]
  · simp [Sample, tallBuffer]
  · simp [Sample, tallBuffer]

/-! ### The centre of the grids -/

/-- C11: for positive sizes, `TransformPos` sends the centre `((fromW - 1) / 2, (fromH - 1) / 2)`
of the source grid to the centre `((toW - 1) / 2, (toH - 1) / 2)` of the target grid. -/
theorem transformPos_centre (fromW fromH toW toH : ℚ) (_hfw : 0 < fromW) (_hfh : 0 < fromH)
    (_htw : 0 < toW) (_hth : 0 < toH) :
    TransformPos fromW fromH toW toH ⟨(fromW - 1) / 2, (fromH - 1) / 2⟩ =
      ⟨(toW - 1) / 2, (toH - 1) / 2⟩ := by
  simp only [TransformPos, FVector2DFloatType.subScalar, FVector2DFloatType.divScalar,
    FVector2DFloatType.sub, FVector2DFloatType.mul, FVector2DFloatType.add, sub_self, zero_mul,
    add_zero]

theorem transformPos_centre_witness :
    TransformPos 4 6 16 3 ⟨(4 - 1) / 2, (6 - 1) / 2⟩ = ⟨(16 - 1) / 2, (3 - 1) / 2⟩ :=
  transformPos_centre 4 6 16 3 (by norm_num) (by norm_num) (by norm_num) (by norm_num)

/-! ### The bytes that the renderer writes -/

/-- A loop of stores at the offsets `k * stride + offset`, with values that may depend on the
buffer, leaves every other offset as it was. -/
theorem foldl_store_dep_untouched {α : Type} (value : (Int → α) → Nat → α) (stride offset : Int)
    (init : Int → α) (n : Nat) (j : Int)
    (hj : ∀ k : Nat, k < n → j ≠ (k : Int) * stride + offset) :
    ((List.range n).foldl
        (fun out (i : Nat) => store out ((i : Int) * stride + offset) (value out i)) init) j =
      init j := by
  induction n with
  | zero => rfl
  | succ n ih =>
    rw [List.range_succ, List.foldl_append]
    simp only [List.foldl_cons, List.foldl_nil]
    rw [store_other _ _ _ _ (hj n (by omega))]
    exact ih (fun k hk => hj k (by omega))

/-- Two offsets `i * stride + c` and `k * stride + d` with `c` and `d` different channels of
the pixel are different. -/
theorem channel_offset_ne {stride i k c d : Int} (hc0 : 0 ≤ c) (hc : c < stride) (hd0 : 0 ≤ d)
    (hd : d < stride) (hcd : c ≠ d) : i * stride + c ≠ k * stride + d := by
  intro h
  exact hcd (rowMajor_inj hc0 hc hd0 hd h).2

theorem createDistanceField_untouched (sourceWidth sourceHeight sdfWidth sdfHeight : Int)
    (pixels : PixelBuffer) (pixelWidth channelOffset : Int) (fieldDistance : ℚ)
    (invertDistance : Bool) (intersectionMap : FloatBuffer) (outPixelBuffer : PixelBuffer)
    (j : Int)
    (hj : ∀ i : Int, 0 ≤ i → i < sdfWidth * sdfHeight → j ≠ i * pixelWidth + channelOffset) :
    CreateDistanceField sourceWidth sourceHeight sdfWidth sdfHeight pixels pixelWidth
        channelOffset fieldDistance invertDistance intersectionMap outPixelBuffer j =
      outPixelBuffer j := by
  dsimp only [CreateDistanceField]
  apply foldl_store_untouched
  intro k hk
  exact hj (k : Int) (Int.ofNat_nonneg _) (by omega)

theorem createDistanceFieldInPlace_untouched (width height : Int) (pixels : PixelBuffer)
    (pixelWidth channelOffset : Int) (fieldDistance : ℚ) (invertDistance : Bool)
    (intersections : FloatBuffer) (j : Int)
    (hj : ∀ i : Int, 0 ≤ i → i < width * height → j ≠ i * pixelWidth + channelOffset) :
    CreateDistanceFieldInPlace width height pixels pixelWidth channelOffset fieldDistance
        invertDistance intersections j = pixels j := by
  dsimp only [CreateDistanceFieldInPlace]
  apply foldl_store_dep_untouched
    (fun buf (i : Nat) => SdfMip width height width height buf pixelWidth channelOffset
      fieldDistance invertDistance (FindEdges (height - 1) (width - 1) intersections).2 i)
  intro k hk
  exact hj (k : Int) (Int.ofNat_nonneg _) (by omega)

/-- The channel loop of the PreserveRGB path, run over any list of channel indices, leaves
alone every byte that is not a sample of a channel with the Alpha role. -/
theorem foldl_preserveRGBChannel_untouched (sourceWidth sourceHeight elementWidth : Int)
    (range : ℚ) (InvertDistance : Bool) (channelColors : List ERTMSDF_Channels)
    (l : List Nat) (st : PreserveState) (j : Int)
    (hj : ∀ a : Nat, channelColors[a]? = some ERTMSDF_Channels.Alpha →
      ∀ i : Int, j ≠ i * elementWidth + (a : Int)) :
    (l.foldl (PreserveRGBChannel sourceWidth sourceHeight elementWidth range InvertDistance
      channelColors) st).mip j = st.mip j := by
  induction l generalizing st with
  | nil => rfl
  | cons a l ih =>
    rw [List.foldl_cons, ih]
    unfold PreserveRGBChannel
    by_cases ha : channelColors[a]? = some ERTMSDF_Channels.Alpha
    · simp only [ha, if_true]
      split
      · exact createDistanceFieldInPlace_untouched _ _ _ _ _ _ _ _ _
          (fun i _ _ => hj a ha i)
      · rfl
    · simp only [ha, if_false]

/-- C12: a call of `CreateDistanceField` with pixel stride `pixelWidth` and channel offset `c`,
`0 ≤ c < pixelWidth`, changes no byte of the output buffer other than those at
`i * pixelWidth + c` with `0 ≤ i < sdfWidth * sdfHeight`; in particular every byte of another
channel is as before.  The PreserveRGB path, which renders in place the channels with the
Alpha role, leaves the bytes of every other channel of the input buffer as they were. -/
theorem createDistanceField_frame (sourceWidth sourceHeight sdfWidth sdfHeight : Int)
    (pixels : PixelBuffer) (pixelWidth c : Int) (fieldDistance : ℚ)
    (invertDistance : Bool) (intersectionMap : FloatBuffer) (outPixelBuffer : PixelBuffer)
    (hc0 : 0 ≤ c) (hc : c < pixelWidth) :
    (∀ j : Int, (∀ i : Int, 0 ≤ i → i < sdfWidth * sdfHeight → j ≠ i * pixelWidth + c) →
      CreateDistanceField sourceWidth sourceHeight sdfWidth sdfHeight pixels pixelWidth
          c fieldDistance invertDistance intersectionMap outPixelBuffer j =
        outPixelBuffer j) ∧
    (∀ i c2 : Int, 0 ≤ c2 → c2 < pixelWidth → c2 ≠ c →
      CreateDistanceField sourceWidth sourceHeight sdfWidth sdfHeight pixels pixelWidth
          c fieldDistance invertDistance intersectionMap outPixelBuffer (i * pixelWidth + c2) =
        outPixelBuffer (i * pixelWidth + c2)) ∧
    (∀ (channelColors : List ERTMSDF_Channels) (sourceIntersections : FloatBuffer)
      (i c2 : Int), (channelColors.length : Int) ≤ pixelWidth → 0 ≤ c2 → c2 < pixelWidth →
      channelColors[c2.toNat]? ≠ some ERTMSDF_Channels.Alpha →
      (PreserveRGBPath sourceWidth sourceHeight pixelWidth fieldDistance invertDistance
          channelColors pixels sourceIntersections).mip (i * pixelWidth + c2) =
        pixels (i * pixelWidth + c2)) := by
  refine ⟨?_, ?_, ?_⟩
  · intro j hj
    exact createDistanceField_untouched _ _ _ _ _ _ _ _ _ _ _ j hj
  · intro i c2 h0 h1 hne
    apply createDistanceField_untouched
    intro k _ _
    exact channel_offset_ne h0 h1 hc0 hc hne
  · intro channelColors sourceIntersections i c2 hlen h0 h1 hrole
    unfold PreserveRGBPath
    rw [foldl_preserveRGBChannel_untouched]
    intro a ha k
    have hlt : a < channelColors.length := by
      by_contra hge
      rw [List.getElem?_eq_none (by omega)] at ha
      cases ha
    have hne : c2 ≠ (a : Int) := by
      intro h
      apply hrole
      have h2 : c2.toNat = a := by omega
      rw [h2]
      exact ha
    exact channel_offset_ne h0 h1 (Int.ofNat_nonneg _) (by omega) hne

theorem createDistanceField_frame_witness :
    CreateDistanceField 2 2 2 2 rampBuffer 4 3 2 false halfFloats rampBuffer (1 * 4 + 2) =
        rampBuffer (1 * 4 + 2) ∧
      (PreserveRGBPath 2 2 4 2 false
          [ERTMSDF_Channels.Blue, ERTMSDF_Channels.Green, ERTMSDF_Channels.Red,
            ERTMSDF_Channels.Alpha] rampBuffer zeroFloats).mip (1 * 4 + 2) =
        rampBuffer (1 * 4 + 2) := by
  have h := createDistanceField_frame 2 2 2 2 rampBuffer 4 3 2 false halfFloats rampBuffer
    (by decide) (by decide)
  exact ⟨h.2.1 1 2 (by decide) (by decide) (by decide),
    h.2.2 _ zeroFloats 1 2 (by decide) (by decide) (by decide) (by decide)⟩

/-! ### The output size of the Resample branch -/

/-- The sixteen bytes of the output of the scenario with the invert flag off: `255 191 63 0`
in the rows `0`, `1` and `2`, and `255 255 0 0` in row `3`. -/
theorem scenarioOutput_off (r c : Fin 4) :
    (scenarioOutput false ((r.val * 4 + c.val : Nat) : Int)).val =
      (if r.val < 3 then [255, 191, 63, 0] else [255, 255, 0, 0]).getD c.val 0 := by
  revert r c
  decide!

theorem scenario_found : (FindIntersections 4 4 edgeBitmap 1 0 zeroFloats).found = true := by
  decide!

/-- C14, as stated, fails: with the invert flag off the sample of column `1` of the output of
the scenario is `255` in row `3` and `191` in row `0`; with the flag on the sample of column `1`
is `0` in row `3` and another value in row `0`.  The crossings of the last row of samples are
not in the map, so no segment reaches row `3`. -/
theorem scenario_rows_differ :
    (scenarioOutput false (3 * 4 + 1)).val = 255 ∧ (scenarioOutput false (0 * 4 + 1)).val = 191 ∧
      (scenarioOutput true (3 * 4 + 1)).val = 0 ∧
      scenarioOutput true (3 * 4 + 1) ≠ scenarioOutput true (0 * 4 + 1) ∧
      ¬ (∀ invertDistance : Bool, ∀ r c : Fin 4,
        scenarioOutput invertDistance ((r.val * 4 + c.val : Nat) : Int) =
          scenarioOutput invertDistance ((c.val : Nat) : Int)) := by
  have h1 := scenarioOutput_off 3 1
  have h2 := scenarioOutput_off 0 1
  refine ⟨h1, h2, by decide!, by decide!, ?_⟩
  intro h
  have h5 := h false 3 1
  have h6 : (scenarioOutput false ((((3 : Fin 4).val * 4 + (1 : Fin 4).val : Nat)) : Int)).val =
      (scenarioOutput false ((((1 : Fin 4).val : Nat)) : Int)).val := by rw [h5]
  rw [h1] at h6
  have h7 : (scenarioOutput false ((((1 : Fin 4).val : Nat)) : Int)).val = 191 := h2
  rw [h7] at h6
  revert h6
  decide

/-- C14, amended: in the output of the scenario the rows `0`, `1` and `2` are identical to each
other, for either value of the invert flag; row `3` holds the saturated values, `255 255 0 0`
with the flag off and `0 0 255 255` with the flag on. -/
theorem scenario_first_rows_identical (invertDistance : Bool) (r : Fin 3) (c : Fin 4) :
    scenarioOutput invertDistance ((r.val * 4 + c.val : Nat) : Int) =
        scenarioOutput invertDistance ((c.val : Nat) : Int) ∧
      (scenarioOutput invertDistance ((3 * 4 + c.val : Nat) : Int)).val =
        (if invertDistance then [0, 0, 255, 255] else [255, 255, 0, 0]).getD c.val 0 := by
  revert invertDistance r c
  decide!

/-- C15, as stated, fails: with the invert flag off row `0` of the output of the scenario is
`255 191 63 0`; it goes down from left to right, with the columns `0` and `1` above `127` and
the columns `2` and `3` below. -/
theorem scenario_row_decreases :
    (scenarioOutput false (0 * 4 + 0)).val = 255 ∧ (scenarioOutput false (0 * 4 + 1)).val = 191 ∧
      (scenarioOutput false (0 * 4 + 2)).val = 63 ∧ (scenarioOutput false (0 * 4 + 3)).val = 0 ∧
      ¬ (∀ r : Fin 4,
        (∀ c : Fin 3, (scenarioOutput false ((r.val * 4 + c.val : Nat) : Int)).val ≤
          (scenarioOutput false ((r.val * 4 + c.val + 1 : Nat) : Int)).val) ∧
        (scenarioOutput false ((r.val * 4 + 0 : Nat) : Int)).val < 127 ∧
        (scenarioOutput false ((r.val * 4 + 1 : Nat) : Int)).val < 127 ∧
        127 < (scenarioOutput false ((r.val * 4 + 2 : Nat) : Int)).val ∧
        127 < (scenarioOutput false ((r.val * 4 + 3 : Nat) : Int)).val) := by
  decide!

/-- C15, amended: with the invert flag off every row of the output of the scenario is
monotonically decreasing from left to right, strictly in the rows `0`, `1` and `2` and with
equal neighbours in row `3`, with the values of the columns `0` and `1` above `127` and the
values of the columns `2` and `3` below `127`.  With the invert flag on the order is the
increasing one, with the columns `0` and `1` below `127` and the columns `2` and `3` above. -/
theorem scenario_rows_monotone (r : Fin 4) :
    ((∀ c : Fin 3, (scenarioOutput false ((r.val * 4 + c.val + 1 : Nat) : Int)).val ≤
        (scenarioOutput false ((r.val * 4 + c.val : Nat) : Int)).val) ∧
      (r.val < 3 → ∀ c : Fin 3, (scenarioOutput false ((r.val * 4 + c.val + 1 : Nat) : Int)).val <
        (scenarioOutput false ((r.val * 4 + c.val : Nat) : Int)).val) ∧
      127 < (scenarioOutput false ((r.val * 4 + 0 : Nat) : Int)).val ∧
      127 < (scenarioOutput false ((r.val * 4 + 1 : Nat) : Int)).val ∧
      (scenarioOutput false ((r.val * 4 + 2 : Nat) : Int)).val < 127 ∧
      (scenarioOutput false ((r.val * 4 + 3 : Nat) : Int)).val < 127) ∧
    ((∀ c : Fin 3, (scenarioOutput true ((r.val * 4 + c.val : Nat) : Int)).val ≤
        (scenarioOutput true ((r.val * 4 + c.val + 1 : Nat) : Int)).val) ∧
      (scenarioOutput true ((r.val * 4 + 0 : Nat) : Int)).val < 127 ∧
      (scenarioOutput true ((r.val * 4 + 1 : Nat) : Int)).val < 127 ∧
      127 < (scenarioOutput true ((r.val * 4 + 2 : Nat) : Int)).val ∧
      127 < (scenarioOutput true ((r.val * 4 + 3 : Nat) : Int)).val) := by
  revert r
  decide!

theorem scenario_rows_monotone_witness :
    ∀ c : Fin 3, (scenarioOutput false ((1 * 4 + c.val + 1 : Nat) : Int)).val <
      (scenarioOutput false ((1 * 4 + c.val : Nat) : Int)).val :=
  (scenario_rows_monotone 1).1.2.1 (by decide)

/-! ### A single vertical edge -/

/-- Between two samples below the threshold there is no valid crossing. -/
theorem crossingParameter_neg_of_lt (v0 v1 : Fin 256) (h0 : v0.val < 127) (h1 : v1.val < 127) :
    CrossingParameter v0 v1 < 0 := by
  have hm := fltMax_pos
  have ha : (v0.val : ℚ) + 1 ≤ 127 := by exact_mod_cast h0
  have hb : (v1.val : ℚ) + 1 ≤ 127 := by exact_mod_cast h1
  unfold CrossingParameter
  split_ifs with e1 e2
  · linarith
  · linarith
  · have hne : v1.val ≠ v0.val := fun h => e1 (Fin.ext h)
    rcases Nat.lt_or_gt_of_ne hne with hlt | hgt
    · have h3 : (v1.val : ℚ) + 1 ≤ (v0.val : ℚ) := by exact_mod_cast hlt
      exact div_neg_of_pos_of_neg (by linarith) (by linarith)
    · exfalso
      have h3 : (v0.val : ℚ) + 1 ≤ (v1.val : ℚ) := by exact_mod_cast hgt
      apply e2
      rw [gt_iff_lt, lt_div_iff₀ (by linarith)]
      linarith

/-- Between two samples above the threshold there is no valid crossing. -/
theorem crossingParameter_neg_of_gt (v0 v1 : Fin 256) (h0 : 127 < v0.val) (h1 : 127 < v1.val) :
    CrossingParameter v0 v1 < 0 := by
  have hm := fltMax_pos
  have ha : (127 : ℚ) + 1 ≤ (v0.val : ℚ) := by exact_mod_cast h0
  have hb : (127 : ℚ) + 1 ≤ (v1.val : ℚ) := by exact_mod_cast h1
  unfold CrossingParameter
  split_ifs with e1 e2
  · linarith
  · linarith
  · have hne : v1.val ≠ v0.val := fun h => e1 (Fin.ext h)
    rcases Nat.lt_or_gt_of_ne hne with hlt | hgt
    · exfalso
      have h3 : (v1.val : ℚ) + 1 ≤ (v0.val : ℚ) := by exact_mod_cast hlt
      apply e2
      rw [gt_iff_lt, lt_div_iff_of_neg (by linarith)]
      linarith
    · have h3 : (v0.val : ℚ) + 1 ≤ (v1.val : ℚ) := by exact_mod_cast hgt
      exact div_neg_of_neg_of_pos (by linarith) (by linarith)

/-- Between a sample below the threshold and one above it the crossing is the interpolation
fraction, strictly inside the cell side. -/
theorem crossingParameter_cross (v0 v1 : Fin 256) (h0 : v0.val < 127) (h1 : 127 < v1.val) :
    CrossingParameter v0 v1 = ((127 : ℚ) - v0.val) / ((v1.val : ℚ) - v0.val) ∧
      0 < CrossingParameter v0 v1 ∧ CrossingParameter v0 v1 < 1 := by
  have ha : (v0.val : ℚ) + 1 ≤ 127 := by exact_mod_cast h0
  have hb : (127 : ℚ) + 1 ≤ (v1.val : ℚ) := by exact_mod_cast h1
  have hden : (0 : ℚ) < (v1.val : ℚ) - v0.val := by linarith
  have hlt : ((127 : ℚ) - v0.val) / ((v1.val : ℚ) - v0.val) < 1 := by
    rw [div_lt_one hden]
    linarith
  have hpos : 0 < ((127 : ℚ) - v0.val) / ((v1.val : ℚ) - v0.val) :=
    div_pos (by linarith) hden
  have hne : ¬ v1 = v0 := by
    intro h
    rw [h] at h1
    omega
  have heq : CrossingParameter v0 v1 = ((127 : ℚ) - v0.val) / ((v1.val : ℚ) - v0.val) := by
    unfold CrossingParameter
    rw [if_neg hne, if_neg (not_lt.mpr (le_of_lt hlt))]
  rw [heq]
  exact ⟨rfl, hpos, hlt⟩

/-- C16, as stated, fails: in the buffer with the rows `0 127 255` and the edge at column
`k = 1`, every sample left of the edge is below `127` and every other one at least `127`, and
row `0` of the map has two top parameters that are valid crossings, `1` in column `0` and `0`
in column `1`. -/
theorem findIntersections_plateau_two_crossings :
    (∀ x : Fin 3, ∀ y : Fin 2,
        (x.val < 1 → (Sample 3 plateauBuffer 1 0 (x.val : Int) (y.val : Int)).val < 127) ∧
        (1 ≤ x.val → 127 ≤ (Sample 3 plateauBuffer 1 0 (x.val : Int) (y.val : Int)).val)) ∧
      (FindIntersections 3 2 plateauBuffer 1 0 zeroFloats).outIntersectionBuffer
        ((0 * (3 - 1) + 0) * 2) = 1 ∧
      (FindIntersections 3 2 plateauBuffer 1 0 zeroFloats).outIntersectionBuffer
        ((0 * (3 - 1) + 1) * 2) = 0 := by
  decide!

/-- C16, amended: when every sample in the columns left of `k` is below `127` and every sample
in the columns from `k` on is above `127`, each row of the map that `FindIntersections` builds
has exactly one top parameter that is a valid crossing: the one of column `k - 1`, which lies
strictly between `0` and `1`, every other top parameter of the row being negative; in exact
rational arithmetic on the samples, which is the arithmetic of C2, that parameter is the
fraction `(127 - a) / (b - a)` of the samples `a` of column `k - 1` and `b` of column `k`.  The
rounding of the quotient to binary32 is left out. -/
theorem findIntersections_vertical_edge (width height : Int) (pixels : PixelBuffer)
    (pixelWidth channelOffset : Int) (out : FloatBuffer) (k y : Int)
    (_hw : 2 ≤ width) (_hh : 2 ≤ height) (hk1 : 1 ≤ k) (hk : k < width)
    (hlow : ∀ x y : Int, 0 ≤ x → x < k → 0 ≤ y → y < height →
      (Sample width pixels pixelWidth channelOffset x y).val < 127)
    (hhigh : ∀ x y : Int, k ≤ x → x < width → 0 ≤ y → y < height →
      127 < (Sample width pixels pixelWidth channelOffset x y).val)
    (hy0 : 0 ≤ y) (hy : y < height - 1) :
    (FindIntersections width height pixels pixelWidth channelOffset out).outIntersectionBuffer
        ((y * (width - 1) + (k - 1)) * 2) =
      ((127 : ℚ) - (Sample width pixels pixelWidth channelOffset (k - 1) y).val) /
        (((Sample width pixels pixelWidth channelOffset k y).val : ℚ) -
          (Sample width pixels pixelWidth channelOffset (k - 1) y).val) ∧
    0 < (FindIntersections width height pixels pixelWidth channelOffset
        out).outIntersectionBuffer ((y * (width - 1) + (k - 1)) * 2) ∧
    (FindIntersections width height pixels pixelWidth channelOffset
        out).outIntersectionBuffer ((y * (width - 1) + (k - 1)) * 2) < 1 ∧
    (∀ x : Int, 0 ≤ x → x < width - 1 → x ≠ k - 1 →
      (FindIntersections width height pixels pixelWidth channelOffset
        out).outIntersectionBuffer ((y * (width - 1) + x) * 2) < 0) := by
  have hedge := (findIntersections_cell width height pixels pixelWidth channelOffset out
    (k - 1) y (by omega) (by omega) hy0 hy).1
  have hsamp : k - 1 + 1 = k := by omega
  have hc := crossingParameter_cross
    (Sample width pixels pixelWidth channelOffset (k - 1) y)
    (Sample width pixels pixelWidth channelOffset k y)
    (hlow (k - 1) y (by omega) (by omega) hy0 (by omega))
    (hhigh k y (le_refl _) hk hy0 (by omega))
  rw [hedge]
  unfold TopParameter
  rw [hsamp]
  refine ⟨hc.1, hc.2.1, hc.2.2, ?_⟩
  intro x hx0 hx hne
  rw [(findIntersections_cell width height pixels pixelWidth channelOffset out
    x y hx0 hx hy0 hy).1]
  unfold TopParameter
  rcases lt_or_gt_of_ne hne with hlt | hgt
  · exact crossingParameter_neg_of_lt _ _
      (hlow x y hx0 (by omega) hy0 (by omega))
      (hlow (x + 1) y (by omega) (by omega) hy0 (by omega))
  · exact crossingParameter_neg_of_gt _ _
      (hhigh x y (by omega) (by omega) hy0 (by omega))
      (hhigh (x + 1) y (by omega) (by omega) hy0 (by omega))

theorem findIntersections_vertical_edge_witness :
    0 < (FindIntersections 4 4 edgeBitmap 1 0 zeroFloats).outIntersectionBuffer
        ((1 * (4 - 1) + (2 - 1)) * 2) ∧
      (FindIntersections 4 4 edgeBitmap 1 0 zeroFloats).outIntersectionBuffer
        ((1 * (4 - 1) + (2 - 1)) * 2) < 1 ∧
      (∀ x : Int, 0 ≤ x → x < 4 - 1 → x ≠ 2 - 1 →
        (FindIntersections 4 4 edgeBitmap 1 0 zeroFloats).outIntersectionBuffer
          ((1 * (4 - 1) + x) * 2) < 0) :=
  (findIntersections_vertical_edge 4 4 edgeBitmap 1 0 zeroFloats 2 1
    (by decide) (by decide) (by decide) (by decide)
    (by
      intro x y hx0 hx _ _
      have hx2 : x = 0 ∨ x = 1 := by omega
      have hm : (y * 4 + x) * 1 + 0 = y * 4 + x := by ring
      rcases hx2 with rfl | rfl <;>
        simp only [Sample, edgeBitmap, hm] <;>
        rw [if_pos (by omega)] <;> decide)
    (by
      intro x y hx0 hx _ _
      have hx2 : x = 2 ∨ x = 3 := by omega
      have hm : (y * 4 + x) * 1 + 0 = y * 4 + x := by ring
      rcases hx2 with rfl | rfl <;>
        simp only [Sample, edgeBitmap, hm] <;>
        rw [if_neg (by omega)] <;> decide)
    (by decide) (by decide)).2

/-! ### The call with the source buffer as the output buffer -/

/-- With equal sizes that are not zero the coordinate map moves no point. -/
theorem transformPos_id (w h : ℚ) (hw : w ≠ 0) (hh : h ≠ 0) (p : FVector2DFloatType) :
    TransformPos w h w h p = p := by
  cases p with
  | mk px py =>
    simp only [TransformPos, FVector2DFloatType.subScalar, FVector2DFloatType.divScalar,
      FVector2DFloatType.sub, FVector2DFloatType.mul, FVector2DFloatType.add,
      div_self hw, div_self hh]
    congr 1 <;> ring

/-- A loop of stores at the offsets `k * stride + offset`, with values that may depend on the
buffer and a stride that is not zero, leaves at the offset of `k` the value computed from the
buffer as it was after the stores for `0, .., k - 1`. -/
theorem foldl_store_dep_written {α : Type} (value : (Int → α) → Nat → α) (stride offset : Int)
    (hstride : stride ≠ 0) (init : Int → α) (n k : Nat) (hk : k < n) :
    ((List.range n).foldl
        (fun out (i : Nat) => store out ((i : Int) * stride + offset) (value out i)) init)
      ((k : Int) * stride + offset) =
      value ((List.range k).foldl
        (fun out (i : Nat) => store out ((i : Int) * stride + offset) (value out i)) init) k := by
  induction n with
  | zero => omega
  | succ n ih =>
    rw [List.range_succ, List.foldl_append]
    simp only [List.foldl_cons, List.foldl_nil]
    by_cases hkn : k = n
    · subst hkn
      exact store_same _ _ _
    · rw [store_other]
      · exact ih (by omega)
      · intro h
        have h2 : (k : Int) * stride = (n : Int) * stride := by omega
        have h3 : (k : Int) = (n : Int) := mul_right_cancel₀ hstride h2
        exact hkn (by exact_mod_cast h3)

/-- At equal source and output sizes, the flag `outside` of a pixel in a row whose number is
below the width is read from the sample of that pixel alone. -/
theorem pixelOutside_own (width height : Int) (buffer : PixelBuffer)
    (pixelWidth channelOffset i : Int) (hw : 1 ≤ width) (hh : 1 ≤ height) (hi0 : 0 ≤ i)
    (hrow : i / width < width) :
    PixelOutside width height width height buffer pixelWidth channelOffset i =
      decide ((buffer (i * pixelWidth + channelOffset)).val < 127) := by
  have hwq : (width : ℚ) ≠ 0 := by exact_mod_cast (by omega : width ≠ 0)
  have hhq : (height : ℚ) ≠ 0 := by exact_mod_cast (by omega : height ≠ 0)
  have hx0 : 0 ≤ i % width := Int.emod_nonneg _ (by omega)
  have hx : i % width < width := Int.emod_lt_of_pos _ (by omega)
  have hy0 : 0 ≤ i / width := Int.ediv_nonneg hi0 (by omega)
  have hsum : i / width * width + i % width = i := Int.ediv_add_emod' i width
  unfold PixelOutside
  dsimp only
  rw [sourcePos_eq _ _ _ _ _ hi0, transformPos_id _ _ hwq hhq,
    computePixelValue_at_sample width height buffer pixelWidth channelOffset _ _ hx0 hx hy0 hrow,
    hsum]

/-- The byte of pixel `i` in the buffer that the in-place call returns, for a stride that is
not zero: the loop body evaluated on the buffer as the iterations before `i` left it. -/
theorem createDistanceFieldInPlace_value (width height : Int) (pixels : PixelBuffer)
    (pixelWidth channelOffset : Int) (fieldDistance : ℚ) (invertDistance : Bool)
    (intersections : FloatBuffer) (i : Int) (hi0 : 0 ≤ i) (hi : i < width * height)
    (hpw : pixelWidth ≠ 0) :
    CreateDistanceFieldInPlace width height pixels pixelWidth channelOffset fieldDistance
        invertDistance intersections (i * pixelWidth + channelOffset) =
      SdfMip width height width height
        (InPlaceAfter width height pixels pixelWidth channelOffset fieldDistance invertDistance
          intersections i.toNat)
        pixelWidth channelOffset fieldDistance invertDistance
        (FindEdges (height - 1) (width - 1) intersections).2 i := by
  dsimp only [CreateDistanceFieldInPlace, InPlaceAfter]
  have h := foldl_store_dep_written
    (fun buf (k : Nat) => SdfMip width height width height buf pixelWidth channelOffset
      fieldDistance invertDistance (FindEdges (height - 1) (width - 1) intersections).2 (k : Int))
    pixelWidth channelOffset hpw pixels (width * height).toNat i.toNat (by omega)
  simp only [Int.toNat_of_nonneg hi0] at h
  exact h

/-- The iterations before pixel `i` leave the sample of pixel `i` as it was. -/
theorem inPlaceAfter_own (width height : Int) (pixels : PixelBuffer)
    (pixelWidth channelOffset : Int) (fieldDistance : ℚ) (invertDistance : Bool)
    (intersections : FloatBuffer) (i : Int) (hi0 : 0 ≤ i) (hpw : pixelWidth ≠ 0) :
    InPlaceAfter width height pixels pixelWidth channelOffset fieldDistance invertDistance
        intersections i.toNat (i * pixelWidth + channelOffset) =
      pixels (i * pixelWidth + channelOffset) := by
  dsimp only [InPlaceAfter]
  apply foldl_store_dep_untouched
    (fun buf (k : Nat) => SdfMip width height width height buf pixelWidth channelOffset
      fieldDistance invertDistance (FindEdges (height - 1) (width - 1) intersections).2 k)
  intro k hk h
  have h2 : i * pixelWidth = (k : Int) * pixelWidth := by omega
  have h3 : i = (k : Int) := mul_right_cancel₀ hpw h2
  omega

/-- In the in-place call a pixel in a row whose number is below the width gets the byte that
the loop body computes from the buffer as it was on entry: the only sample that decides its
sign is its own, which no earlier iteration has written. -/
theorem createDistanceFieldInPlace_at (width height : Int) (pixels : PixelBuffer)
    (pixelWidth channelOffset : Int) (fieldDistance : ℚ) (invertDistance : Bool)
    (intersections : FloatBuffer) (i : Int) (hw : 1 ≤ width) (hi0 : 0 ≤ i)
    (hi : i < width * height) (hrow : i / width < width) (hpw : pixelWidth ≠ 0) :
    CreateDistanceFieldInPlace width height pixels pixelWidth channelOffset fieldDistance
        invertDistance intersections (i * pixelWidth + channelOffset) =
      SdfMip width height width height pixels pixelWidth channelOffset fieldDistance
        invertDistance (FindEdges (height - 1) (width - 1) intersections).2 i := by
  have hh : 1 ≤ height := by
    by_contra hlt
    have : width * height ≤ 0 := mul_nonpos_of_nonneg_of_nonpos (by omega) (by omega)
    omega
  rw [createDistanceFieldInPlace_value _ _ _ _ _ _ _ _ i hi0 hi hpw]
  unfold SdfMip
  dsimp only
  rw [pixelOutside_own width height _ pixelWidth channelOffset i hw hh hi0 hrow,
    pixelOutside_own width height pixels pixelWidth channelOffset i hw hh hi0 hrow,
    inPlaceAfter_own _ _ _ _ _ _ _ _ i hi0 hpw]

/-! ### Saturation, monotonicity and sign of the rendered value -/

/-- The value of `currDistSq` at the end of the edge loop is the windowed squared distance at
the mapped point. -/
theorem pixelDistSq_isWindow (sourceWidth sourceHeight sdfWidth sdfHeight : Int)
    (fieldDistance : ℚ) (edgeBuffer : List FVector2DFloatType) (i : Int)
    (p : FVector2DFloatType) (hi0 : 0 ≤ i)
    (hp : p = TransformPos sdfWidth sdfHeight sourceWidth sourceHeight
      ⟨((i % sdfWidth : Int) : ℚ), ((i / sdfWidth : Int) : ℚ)⟩) :
    IsWindowDistSq p (fieldDistance / 2) edgeBuffer
      (PixelDistSq sourceWidth sourceHeight sdfWidth sdfHeight fieldDistance edgeBuffer i) := by
  have hhalf : fieldDistance * (1 / 2) = fieldDistance / 2 := by ring
  have hinit : fieldDistance * (1 / 2) * (fieldDistance * (1 / 2)) = (fieldDistance / 2) ^ 2 := by
    ring
  have hpos : SourcePos sourceWidth sourceHeight sdfWidth sdfHeight i = p := by
    rw [sourcePos_eq _ _ _ _ _ hi0, hp]
  unfold PixelDistSq IsWindowDistSq
  dsimp only
  rw [hinit, hhalf, hpos]
  exact edgeLoop_isLeast_segments p (fieldDistance / 2) edgeBuffer ((fieldDistance / 2) ^ 2)

theorem pixelOutside_eq (sourceWidth sourceHeight sdfWidth sdfHeight : Int)
    (pixels : PixelBuffer) (pixelWidth channelOffset i : Int) (p : FVector2DFloatType)
    (hi0 : 0 ≤ i)
    (hp : p = TransformPos sdfWidth sdfHeight sourceWidth sourceHeight
      ⟨((i % sdfWidth : Int) : ℚ), ((i / sdfWidth : Int) : ℚ)⟩) :
    PixelOutside sourceWidth sourceHeight sdfWidth sdfHeight pixels pixelWidth channelOffset i =
      decide ((ComputePixelValue p sourceWidth sourceHeight pixels pixelWidth
        channelOffset).val < 127) := by
  unfold PixelOutside
  dsimp only
  rw [sourcePos_eq _ _ _ _ _ hi0, hp]

/-- The clamp of the floor is monotone. -/
theorem clampFloor_mono {x y : ℝ} (h : x ≤ y) :
    max (min ⌊x⌋ 255) 0 ≤ max (min ⌊y⌋ 255) 0 :=
  max_le_max (min_le_min (Int.floor_mono h) (le_refl _)) (le_refl _)

/-- With the positive sign the byte is at least `127`, and with the negative sign at most
`127`. -/
theorem sdfMip_sign (sourceWidth sourceHeight sdfWidth sdfHeight : Int)
    (pixels : PixelBuffer) (pixelWidth channelOffset : Int) (fieldDistance : ℚ)
    (invertDistance : Bool) (edgeBuffer : List FVector2DFloatType) (i : Int)
    (hF : 0 < fieldDistance) :
    (xor (PixelOutside sourceWidth sourceHeight sdfWidth sdfHeight pixels pixelWidth
        channelOffset i) invertDistance = true →
      127 ≤ (SdfMip sourceWidth sourceHeight sdfWidth sdfHeight pixels pixelWidth channelOffset
        fieldDistance invertDistance edgeBuffer i).val) ∧
    (xor (PixelOutside sourceWidth sourceHeight sdfWidth sdfHeight pixels pixelWidth
        channelOffset i) invertDistance = false →
      (SdfMip sourceWidth sourceHeight sdfWidth sdfHeight pixels pixelWidth channelOffset
        fieldDistance invertDistance edgeBuffer i).val ≤ 127) := by
  have h := (sdfMip_real sourceWidth sourceHeight sdfWidth sdfHeight pixels pixelWidth
    channelOffset fieldDistance invertDistance edgeBuffer i hF).2
  have hFR : (0 : ℝ) < (fieldDistance : ℝ) := by exact_mod_cast hF
  have hs := Real.sqrt_nonneg ((PixelDistSq sourceWidth sourceHeight sdfWidth sdfHeight
    fieldDistance edgeBuffer i : ℚ) : ℝ)
  have hdiv := div_nonneg hs (le_of_lt hFR)
  constructor
  · intro hx
    rw [hx] at h
    simp only [if_true, one_mul] at h
    have h1 : (127 : Int) ≤ ⌊(Real.sqrt ((PixelDistSq sourceWidth sourceHeight sdfWidth sdfHeight
        fieldDistance edgeBuffer i : ℚ) : ℝ) / (fieldDistance : ℝ) + 1 / 2) * 255⌋ := by
      rw [Int.le_floor]
      push_cast
      linarith
    have h2 : (127 : Int) ≤ ((SdfMip sourceWidth sourceHeight sdfWidth sdfHeight pixels
        pixelWidth channelOffset fieldDistance invertDistance edgeBuffer i).val : Int) := by
      rw [h]
      exact le_max_of_le_left (le_min h1 (by decide))
    exact_mod_cast h2
  · intro hx
    rw [hx] at h
    simp only [Bool.false_eq_true, if_false, neg_one_mul, neg_div] at h
    have h1 : ⌊(-(Real.sqrt ((PixelDistSq sourceWidth sourceHeight sdfWidth sdfHeight
        fieldDistance edgeBuffer i : ℚ) : ℝ) / (fieldDistance : ℝ)) + 1 / 2) * 255⌋ <
        (128 : Int) := by
      rw [Int.floor_lt]
      push_cast
      linarith
    have h2 : ((SdfMip sourceWidth sourceHeight sdfWidth sdfHeight pixels
        pixelWidth channelOffset fieldDistance invertDistance edgeBuffer i).val : Int) ≤ 127 := by
      rw [h]
      exact max_le (le_trans (min_le_left _ _) (by omega)) (by decide)
    exact_mod_cast h2

/-- C18, as stated, fails: for the source `0 254` over `254 254` rendered at twenty by twenty
with `fieldDistance = 1` and the invert flag on, the edge list is the one segment from
`(1/2, 0)` to `(0, 1/2)`, and `FindIntersections` succeeds.  The output pixels `110` and `189` are mapped to `(11/20, 1/20)` and
`(9/20, 9/20)` and both get the positive sign; the first is at squared distance `1/200` from
the segment and the second at `2/25`, yet the first is written `255` and the second `199`:
one endpoint of the segment is outside the window of the first point. -/
theorem createDistanceField_nearer_point_larger :
    (FindEdges (2 - 1) (2 - 1)
        (FindIntersections 2 2 cornerBuffer 1 0 zeroFloats).outIntersectionBuffer).2 =
      [⟨1 / 2, 0⟩, ⟨0, 1 / 2⟩] ∧
    (FindIntersections 2 2 cornerBuffer 1 0 zeroFloats).found = true ∧
    SourcePos 2 2 20 20 110 = ⟨11 / 20, 1 / 20⟩ ∧ SourcePos 2 2 20 20 189 = ⟨9 / 20, 9 / 20⟩ ∧
    xor (PixelOutside 2 2 20 20 cornerBuffer 1 0 110) true = true ∧
    xor (PixelOutside 2 2 20 20 cornerBuffer 1 0 189) true = true ∧
    IsNearestDistSq ⟨11 / 20, 1 / 20⟩ [⟨1 / 2, 0⟩, ⟨0, 1 / 2⟩] (1 / 200) ∧
    IsNearestDistSq ⟨9 / 20, 9 / 20⟩ [⟨1 / 2, 0⟩, ⟨0, 1 / 2⟩] (2 / 25) ∧
    (SdfMip 2 2 20 20 cornerBuffer 1 0 1 true [⟨1 / 2, 0⟩, ⟨0, 1 / 2⟩] 110).val = 255 ∧
    (SdfMip 2 2 20 20 cornerBuffer 1 0 1 true [⟨1 / 2, 0⟩, ⟨0, 1 / 2⟩] 189).val = 199 := by
  have hnear : ∀ (p a b : FVector2DFloatType) (d : ℚ),
      FVector2DFloatType.DistSquared p (ClosestPointOnSegment2D p a b) = d →
      IsNearestDistSq p [a, b] d := by
    intro p a b d hd
    have hset : {e : ℚ | ∃ s ∈ Segments [a, b], IsSegmentDistSq p s.1 s.2 e} = {d} := by
      ext e
      simp only [Segments, List.mem_singleton, exists_eq_left, Set.mem_setOf_eq,
        isSegmentDistSq_iff, hd, Set.mem_singleton_iff]
    unfold IsNearestDistSq
    rw [hset]
    exact isLeast_singleton
  refine ⟨by decide!, by decide!, by decide!, by decide!, by decide!, by decide!,
    hnear _ _ _ _ (by decide!), hnear _ _ _ _ (by decide!), by decide!, by decide!⟩

/-- C18, amended: in exact real arithmetic, for a fixed edge list, `fieldDistance > 0` and invert
flag, and two output pixels whose mapped points both get the positive sign (from the source
buffer as it is on entry), if the windowed distance of the first point (the distance to the
nearest segment among those with both endpoints within Chebyshev distance `fieldDistance / 2`
of the point, and `fieldDistance / 2` at most) is at most the one of the second point, then
the value written for the first is at most the value written for the second: so it is for the
bytes that the loop body computes, for the bytes that the call with an output buffer other
than the source buffer stores, and for the bytes that the call in place stores when both
pixels are in rows whose number is below the width (the stride being other than zero and the
edge list the one that `FindEdges` extracts).  The rounding of binary32 is left out, and
nothing is said of the call in place for the rows from the width on. -/
theorem createDistanceField_monotone (sourceWidth sourceHeight sdfWidth sdfHeight : Int)
    (pixels : PixelBuffer) (pixelWidth channelOffset : Int) (fieldDistance : ℚ)
    (invertDistance : Bool) (edgeBuffer : List FVector2DFloatType)
    (intersectionMap : FloatBuffer) (outPixelBuffer : PixelBuffer)
    (i1 i2 : Int) (p1 p2 : FVector2DFloatType) (d1 d2 : ℚ)
    (hF : 0 < fieldDistance) (hi1 : 0 ≤ i1) (hi2 : 0 ≤ i2)
    (hp1 : p1 = TransformPos sdfWidth sdfHeight sourceWidth sourceHeight
      ⟨((i1 % sdfWidth : Int) : ℚ), ((i1 / sdfWidth : Int) : ℚ)⟩)
    (hp2 : p2 = TransformPos sdfWidth sdfHeight sourceWidth sourceHeight
      ⟨((i2 % sdfWidth : Int) : ℚ), ((i2 / sdfWidth : Int) : ℚ)⟩)
    (hs1 : xor (decide ((ComputePixelValue p1 sourceWidth sourceHeight pixels pixelWidth
      channelOffset).val < 127)) invertDistance = true)
    (hs2 : xor (decide ((ComputePixelValue p2 sourceWidth sourceHeight pixels pixelWidth
      channelOffset).val < 127)) invertDistance = true)
    (hd1 : IsWindowDistSq p1 (fieldDistance / 2) edgeBuffer d1)
    (hd2 : IsWindowDistSq p2 (fieldDistance / 2) edgeBuffer d2)
    (hle : d1 ≤ d2) :
    (SdfMip sourceWidth sourceHeight sdfWidth sdfHeight pixels pixelWidth channelOffset
        fieldDistance invertDistance edgeBuffer i1).val ≤
      (SdfMip sourceWidth sourceHeight sdfWidth sdfHeight pixels pixelWidth channelOffset
        fieldDistance invertDistance edgeBuffer i2).val ∧
    (edgeBuffer = (FindEdges (sourceHeight - 1) (sourceWidth - 1) intersectionMap).2 →
      pixelWidth ≠ 0 → i1 < sdfWidth * sdfHeight → i2 < sdfWidth * sdfHeight →
      (CreateDistanceField sourceWidth sourceHeight sdfWidth sdfHeight pixels pixelWidth
          channelOffset fieldDistance invertDistance intersectionMap outPixelBuffer
          (i1 * pixelWidth + channelOffset)).val ≤
        (CreateDistanceField sourceWidth sourceHeight sdfWidth sdfHeight pixels pixelWidth
          channelOffset fieldDistance invertDistance intersectionMap outPixelBuffer
          (i2 * pixelWidth + channelOffset)).val) ∧
    (edgeBuffer = (FindEdges (sourceHeight - 1) (sourceWidth - 1) intersectionMap).2 →
      pixelWidth ≠ 0 → i1 < sdfWidth * sdfHeight → i2 < sdfWidth * sdfHeight →
      sdfWidth = sourceWidth → sdfHeight = sourceHeight → 1 ≤ sourceWidth →
      i1 / sourceWidth < sourceWidth → i2 / sourceWidth < sourceWidth →
      (CreateDistanceFieldInPlace sourceWidth sourceHeight pixels pixelWidth channelOffset
          fieldDistance invertDistance intersectionMap (i1 * pixelWidth + channelOffset)).val ≤
        (CreateDistanceFieldInPlace sourceWidth sourceHeight pixels pixelWidth channelOffset
          fieldDistance invertDistance intersectionMap (i2 * pixelWidth + channelOffset)).val) := by
  have hval : (SdfMip sourceWidth sourceHeight sdfWidth sdfHeight pixels pixelWidth channelOffset
      fieldDistance invertDistance edgeBuffer i1).val ≤
      (SdfMip sourceWidth sourceHeight sdfWidth sdfHeight pixels pixelWidth channelOffset
        fieldDistance invertDistance edgeBuffer i2).val := by
    have hq1 := (pixelDistSq_isWindow sourceWidth sourceHeight sdfWidth sdfHeight fieldDistance
      edgeBuffer i1 p1 hi1 hp1).unique hd1
    have hq2 := (pixelDistSq_isWindow sourceWidth sourceHeight sdfWidth sdfHeight fieldDistance
      edgeBuffer i2 p2 hi2 hp2).unique hd2
    have ho1 := pixelOutside_eq sourceWidth sourceHeight sdfWidth sdfHeight pixels pixelWidth
      channelOffset i1 p1 hi1 hp1
    have ho2 := pixelOutside_eq sourceWidth sourceHeight sdfWidth sdfHeight pixels pixelWidth
      channelOffset i2 p2 hi2 hp2
    have h1 := (sdfMip_real sourceWidth sourceHeight sdfWidth sdfHeight pixels pixelWidth
      channelOffset fieldDistance invertDistance edgeBuffer i1 hF).2
    have h2 := (sdfMip_real sourceWidth sourceHeight sdfWidth sdfHeight pixels pixelWidth
      channelOffset fieldDistance invertDistance edgeBuffer i2 hF).2
    rw [hq1, ho1, hs1] at h1
    rw [hq2, ho2, hs2] at h2
    simp only [if_true, one_mul] at h1 h2
    have hFR : (0 : ℝ) < (fieldDistance : ℝ) := by exact_mod_cast hF
    have hsq : Real.sqrt (d1 : ℝ) ≤ Real.sqrt (d2 : ℝ) :=
      Real.sqrt_le_sqrt (by exact_mod_cast hle)
    have hexpr : (Real.sqrt (d1 : ℝ) / (fieldDistance : ℝ) + 1 / 2) * 255 ≤
        (Real.sqrt (d2 : ℝ) / (fieldDistance : ℝ) + 1 / 2) * 255 := by
      have := div_le_div_of_nonneg_right hsq (le_of_lt hFR)
      linarith
    have hfin := clampFloor_mono hexpr
    rw [← h1, ← h2] at hfin
    exact_mod_cast hfin
  refine ⟨hval, fun hedges hpw hlt1 hlt2 => ?_,
    fun hedges hpw hlt1 hlt2 hsw hsh hw1 hrow1 hrow2 => ?_⟩
  · subst hedges
    rw [createDistanceField_at sourceWidth sourceHeight sdfWidth sdfHeight pixels pixelWidth
        channelOffset fieldDistance invertDistance intersectionMap outPixelBuffer i1 hi1 hlt1 hpw,
      createDistanceField_at sourceWidth sourceHeight sdfWidth sdfHeight pixels pixelWidth
        channelOffset fieldDistance invertDistance intersectionMap outPixelBuffer i2 hi2 hlt2 hpw]
    exact hval
  · subst hedges
    subst hsw
    subst hsh
    rw [createDistanceFieldInPlace_at _ _ pixels pixelWidth channelOffset fieldDistance
        invertDistance intersectionMap i1 hw1 hi1 hlt1 hrow1 hpw,
      createDistanceFieldInPlace_at _ _ pixels pixelWidth channelOffset fieldDistance
        invertDistance intersectionMap i2 hw1 hi2 hlt2 hrow2 hpw]
    exact hval

theorem createDistanceField_monotone_witness :
    (CreateDistanceField 4 4 4 4 edgeBitmap 1 0 2 false
        (FindIntersections 4 4 edgeBitmap 1 0 zeroFloats).outIntersectionBuffer zeroBytes
        (1 * 1 + 0)).val ≤
      (CreateDistanceField 4 4 4 4 edgeBitmap 1 0 2 false
        (FindIntersections 4 4 edgeBitmap 1 0 zeroFloats).outIntersectionBuffer zeroBytes
        (0 * 1 + 0)).val :=
  (createDistanceField_monotone 4 4 4 4 edgeBitmap 1 0 2 false _
    (FindIntersections 4 4 edgeBitmap 1 0 zeroFloats).outIntersectionBuffer zeroBytes
    1 0 _ _ _ _
    (by norm_num) (by decide) (by decide) rfl rfl (by decide!) (by decide!)
    (pixelDistSq_isWindow 4 4 4 4 2 _ 1 _ (by decide) rfl)
    (pixelDistSq_isWindow 4 4 4 4 2 _ 0 _ (by decide) rfl)
    (by decide!)).2.1 rfl (by decide) (by decide) (by decide)

/-! ### The closest point of a segment -/

/-- C19: for every point `p` and every segment from `a` to `b`, the degenerate one with `a = b`
included, `ClosestPointOnSegment2D p a b` is a point of the closed segment, and no point of
the segment is nearer to `p`, in squared distance and in distance; whenever the function
reaches its division, neither early return being taken, the squared length that it divides
by is not zero, and for `a = b` it returns `a`. -/
theorem closestPointOnSegment2D_correct (p a b : FVector2DFloatType) :
    (∃ t : ℚ, 0 ≤ t ∧ t ≤ 1 ∧ ClosestPointOnSegment2D p a b = SegmentPoint a b t) ∧
    (∀ t : ℚ, 0 ≤ t → t ≤ 1 →
      FVector2DFloatType.DistSquared p (ClosestPointOnSegment2D p a b) ≤
        FVector2DFloatType.DistSquared p (SegmentPoint a b t)) ∧
    (∀ t : ℚ, 0 ≤ t → t ≤ 1 →
      Real.sqrt ((FVector2DFloatType.DistSquared p (ClosestPointOnSegment2D p a b) : ℚ) : ℝ) ≤
        Real.sqrt ((FVector2DFloatType.DistSquared p (SegmentPoint a b t) : ℚ) : ℝ)) ∧
    (¬ (p.sub a).dot (b.sub a) ≤ 0 → ¬ (b.sub a).dot (b.sub a) ≤ (p.sub a).dot (b.sub a) →
      (b.sub a).dot (b.sub a) ≠ 0) ∧
    (a = b → ClosestPointOnSegment2D p a b = a) := by
  refine ⟨closestPoint_on_segment p a b, closestPoint_le p a b, ?_, ?_, ?_⟩
  · intro t h0 h1
    apply Real.sqrt_le_sqrt
    exact_mod_cast closestPoint_le p a b t h0 h1
  · intro h1 h2 h3
    rw [h3] at h2
    exact h2 (le_of_lt (not_le.mp h1))
  · intro h
    subst h
    have h0 : (p.sub a).dot (a.sub a) ≤ 0 := by
      simp [FVector2DFloatType.sub, FVector2DFloatType.dot]
    unfold ClosestPointOnSegment2D
    dsimp only
    rw [if_pos h0]

theorem closestPointOnSegment2D_correct_witness :
    FVector2DFloatType.DistSquared ⟨1, 1⟩ (ClosestPointOnSegment2D ⟨1, 1⟩ ⟨0, 0⟩ ⟨2, 0⟩) ≤
        FVector2DFloatType.DistSquared ⟨1, 1⟩ (SegmentPoint ⟨0, 0⟩ ⟨2, 0⟩ (1 / 4)) ∧
      ClosestPointOnSegment2D ⟨1, 1⟩ ⟨3, 2⟩ ⟨3, 2⟩ = ⟨3, 2⟩ :=
  ⟨(closestPointOnSegment2D_correct ⟨1, 1⟩ ⟨0, 0⟩ ⟨2, 0⟩).2.1 (1 / 4) (by norm_num) (by norm_num),
    (closestPointOnSegment2D_correct ⟨1, 1⟩ ⟨3, 2⟩ ⟨3, 2⟩).2.2.2.2 rfl⟩

/-! ### Thresholding the output -/

/-- The quantisation keeps the sign: for `fieldDistance > 0` and an output pixel with mapped
point `p`, with the invert flag off, a written value above `127` means that the value that
`ComputePixelValue` returns at `p` is below `127`, and a written value below `127` means that
it is at least `127`; with the invert flag on the two conclusions are swapped.  The buffer
returned holds the written value (the stride being other than zero).  Beyond row `width - 1`
what `ComputePixelValue` returns is not the intensity of the source at `p`: the row is clamped
with the width. -/
theorem createDistanceField_threshold (sourceWidth sourceHeight sdfWidth sdfHeight : Int)
    (pixels : PixelBuffer) (pixelWidth channelOffset : Int) (fieldDistance : ℚ)
    (invertDistance : Bool) (intersectionMap : FloatBuffer) (outPixelBuffer : PixelBuffer)
    (i : Int) (p : FVector2DFloatType)
    (hF : 0 < fieldDistance) (hi0 : 0 ≤ i) (hi : i < sdfWidth * sdfHeight)
    (hp : p = TransformPos sdfWidth sdfHeight sourceWidth sourceHeight
      ⟨((i % sdfWidth : Int) : ℚ), ((i / sdfWidth : Int) : ℚ)⟩) :
    (invertDistance = false →
      (127 < (SdfMip sourceWidth sourceHeight sdfWidth sdfHeight pixels pixelWidth
          channelOffset fieldDistance invertDistance
          (FindEdges (sourceHeight - 1) (sourceWidth - 1) intersectionMap).2 i).val →
        (ComputePixelValue p sourceWidth sourceHeight pixels pixelWidth channelOffset).val
          < 127) ∧
      ((SdfMip sourceWidth sourceHeight sdfWidth sdfHeight pixels pixelWidth
          channelOffset fieldDistance invertDistance
          (FindEdges (sourceHeight - 1) (sourceWidth - 1) intersectionMap).2 i).val < 127 →
        127 ≤ (ComputePixelValue p sourceWidth sourceHeight pixels pixelWidth
          channelOffset).val)) ∧
    (invertDistance = true →
      (127 < (SdfMip sourceWidth sourceHeight sdfWidth sdfHeight pixels pixelWidth
          channelOffset fieldDistance invertDistance
          (FindEdges (sourceHeight - 1) (sourceWidth - 1) intersectionMap).2 i).val →
        127 ≤ (ComputePixelValue p sourceWidth sourceHeight pixels pixelWidth
          channelOffset).val) ∧
      ((SdfMip sourceWidth sourceHeight sdfWidth sdfHeight pixels pixelWidth
          channelOffset fieldDistance invertDistance
          (FindEdges (sourceHeight - 1) (sourceWidth - 1) intersectionMap).2 i).val < 127 →
        (ComputePixelValue p sourceWidth sourceHeight pixels pixelWidth channelOffset).val
          < 127)) ∧
    (pixelWidth ≠ 0 →
      CreateDistanceField sourceWidth sourceHeight sdfWidth sdfHeight pixels pixelWidth
          channelOffset fieldDistance invertDistance intersectionMap outPixelBuffer
          (i * pixelWidth + channelOffset) =
        SdfMip sourceWidth sourceHeight sdfWidth sdfHeight pixels pixelWidth channelOffset
          fieldDistance invertDistance
          (FindEdges (sourceHeight - 1) (sourceWidth - 1) intersectionMap).2 i) := by
  have hsign := sdfMip_sign sourceWidth sourceHeight sdfWidth sdfHeight pixels pixelWidth
    channelOffset fieldDistance invertDistance
    (FindEdges (sourceHeight - 1) (sourceWidth - 1) intersectionMap).2 i hF
  rw [pixelOutside_eq sourceWidth sourceHeight sdfWidth sdfHeight pixels pixelWidth
    channelOffset i p hi0 hp] at hsign
  refine ⟨?_, ?_, fun hpw => createDistanceField_at sourceWidth sourceHeight sdfWidth sdfHeight
    pixels pixelWidth channelOffset fieldDistance invertDistance intersectionMap outPixelBuffer
    i hi0 hi hpw⟩
  · intro hinv
    subst hinv
    by_cases hc : (ComputePixelValue p sourceWidth sourceHeight pixels pixelWidth
        channelOffset).val < 127
    · refine ⟨fun _ => hc, fun hv => ?_⟩
      have := hsign.1 (by simp [hc])
      omega
    · refine ⟨fun hv => ?_, fun _ => not_lt.mp hc⟩
      have := hsign.2 (by simp [hc])
      omega
  · intro hinv
    subst hinv
    by_cases hc : (ComputePixelValue p sourceWidth sourceHeight pixels pixelWidth
        channelOffset).val < 127
    · refine ⟨fun hv => ?_, fun _ => hc⟩
      have := hsign.2 (by simp [hc])
      omega
    · refine ⟨fun _ => not_lt.mp hc, fun hv => ?_⟩
      have := hsign.1 (by simp [hc])
      omega

theorem createDistanceField_threshold_witness :
    (scenarioOutput false (1 * 1 + 0)).val = 191 ∧
      (ComputePixelValue
        (TransformPos ((4 : Int) : ℚ) ((4 : Int) : ℚ) ((4 : Int) : ℚ) ((4 : Int) : ℚ)
          ⟨((1 % 4 : Int) : ℚ), ((1 / 4 : Int) : ℚ)⟩) 4 4 edgeBitmap 1 0).val < 127 := by
  have h := createDistanceField_threshold 4 4 4 4 edgeBitmap 1 0 2 false
    (FindIntersections 4 4 edgeBitmap 1 0 zeroFloats).outIntersectionBuffer zeroBytes 1 _
    (by norm_num) (by decide) (by decide) rfl
  have hv : (scenarioOutput false (1 * 1 + 0)).val = 191 := scenarioOutput_off 0 1
  have hbuf := h.2.2 (by decide)
  refine ⟨hv, (h.1 rfl).1 ?_⟩
  rw [← hbuf]
  have hv2 : (CreateDistanceField 4 4 4 4 edgeBitmap 1 0 2 false
      (FindIntersections 4 4 edgeBitmap 1 0 zeroFloats).outIntersectionBuffer zeroBytes
      (1 * 1 + 0)).val = 191 := hv
  rw [hv2]
  decide

/-- C20, at the failing input: the buffer of two columns and three rows with the samples
`0 255`, `0 255`, `255 255` is rendered at its own size with `fieldDistance = 2` and the invert
flag off, into a buffer of its own; `FindIntersections` succeeds on it.  Output pixel `4` is
mapped to the integer position `(0, 2)`, where the intensity of the source is the sample `255`,
at least `127`; the byte written for it is `191`, above `127`.  The sampler returns `0` there,
the sample of `(0, 1)`: it clamps the row with the width, which is the defect of C9. -/
theorem createDistanceField_threshold_tall :
    (FindIntersections 2 3 tallBuffer 1 0 zeroFloats).found = true ∧
    SourcePos 2 3 2 3 4 = ⟨0, 2⟩ ∧
    (Sample 2 tallBuffer 1 0 0 2).val = 255 ∧
    (CreateDistanceField 2 3 2 3 tallBuffer 1 0 2 false
        (FindIntersections 2 3 tallBuffer 1 0 zeroFloats).outIntersectionBuffer zeroBytes
        (4 * 1 + 0)).val = 191 ∧
    (ComputePixelValue ⟨0, 2⟩ 2 3 tallBuffer 1 0).val = 0 ∧
    (Sample 2 tallBuffer 1 0 0 1).val = 0 := by
  refine ⟨tallBuffer_found, by decide!, by decide!, by decide!, by decide!, by decide!⟩

/-! ### The value of a pixel in the call in place -/

/-- C8, at the failing input: the PreserveRGB path renders in place the alpha channel of the
buffer of two columns and three rows with the samples `0 255`, `0 255`, `255 255`, with
`fieldDistance = 2` and the invert flag off; `FindIntersections` succeeds on it.  Output pixel
`5` is mapped to `p = (1, 2)`, where `ComputePixelValue` returns `255` on the buffer as passed:
the sign of the claim is `-1` and its value at most `127`, whatever the distance; it is `0`,
the byte that the call with an output buffer of its own stores.  The call in place leaves
`255`: for row `2` the sampler reads row `1`, the row being clamped with the width (the defect
of C9), and by the time of pixel `5` the loop has overwritten the sample of `(1, 1)` with
`63`. -/
theorem createDistanceField_in_place_tall :
    (FindIntersections 2 3 tallAlphaBuffer 4 3 zeroFloats).found = true ∧
    SourcePos 2 3 2 3 5 = ⟨1, 2⟩ ∧
    (ComputePixelValue ⟨1, 2⟩ 2 3 tallAlphaBuffer 4 3).val = 255 ∧
    (∀ d2 : ℚ, max (min ⌊((-1 : ℝ) * Real.sqrt (d2 : ℝ) / ((2 : ℚ) : ℝ) + 1 / 2) * 255⌋ 255) 0 ≤
      127) ∧
    (CreateDistanceField 2 3 2 3 tallAlphaBuffer 4 3 2 false
        (FindIntersections 2 3 tallAlphaBuffer 4 3 zeroFloats).outIntersectionBuffer zeroBytes
        (5 * 4 + 3)).val = 0 ∧
    ((PreserveRGBPath 2 3 4 2 false
        [ERTMSDF_Channels.Blue, ERTMSDF_Channels.Green, ERTMSDF_Channels.Red,
          ERTMSDF_Channels.Alpha]
        tallAlphaBuffer zeroFloats).mip (5 * 4 + 3)).val = 255 ∧
    (InPlaceAfter 2 3 tallAlphaBuffer 4 3 2 false
        (FindIntersections 2 3 tallAlphaBuffer 4 3 zeroFloats).outIntersectionBuffer 5
        ((1 * 2 + 1) * 4 + 3)).val = 63 ∧
    (ComputePixelValue ⟨1, 2⟩ 2 3
        (InPlaceAfter 2 3 tallAlphaBuffer 4 3 2 false
          (FindIntersections 2 3 tallAlphaBuffer 4 3 zeroFloats).outIntersectionBuffer 5)
        4 3).val = 63 := by
  refine ⟨by decide!, by decide!, by decide!, ?_, by decide!, by decide!, by decide!,
    by decide!⟩
  intro d2
  have hs := Real.sqrt_nonneg (d2 : ℝ)
  have h1 : ⌊((-1 : ℝ) * Real.sqrt (d2 : ℝ) / ((2 : ℚ) : ℝ) + 1 / 2) * 255⌋ < (128 : Int) := by
    rw [Int.floor_lt]
    push_cast
    linarith
  exact max_le (le_trans (min_le_left _ _) (by omega)) (by decide)

/-! ### A cell with three crossings, and the parity of the edge list -/

theorem cellEdges_length_even (pts : List FVector2DFloatType) :
    (CellEdges pts).length % 2 = 0 := by
  unfold CellEdges
  dsimp only
  split_ifs <;> simp

theorem flatMap_length_even {α β : Type} (f : α → List β) (l : List α)
    (h : ∀ a ∈ l, (f a).length % 2 = 0) : (l.flatMap f).length % 2 = 0 := by
  induction l with
  | nil => simp
  | cons a l ih =>
    rw [List.flatMap_cons, List.length_append]
    have h1 := h a (List.mem_cons_self _ _)
    have h2 := ih (fun b hb => h b (List.mem_cons_of_mem _ hb))
    omega

/-- The edge buffer that `FindEdges` builds has even length. -/
theorem findEdges_length_even (intersectionMapHeight intersectionMapWidth : Int)
    (intersectionMap : FloatBuffer) :
    (FindEdges intersectionMapHeight intersectionMapWidth intersectionMap).2.length % 2 = 0 := by
  rw [findEdges_eq]
  apply flatMap_length_even
  intro y _
  apply flatMap_length_even
  intro x _
  exact cellEdges_length_even _

/-- C21: in a cell for which exactly three sides have an accepted crossing, the three points
being gathered in the order top, bottom, left, right, `FindEdges` appends the one segment that
joins the first two of them, and the third point is in no segment of the cell; the edge list,
which is the concatenation of what the cells append, has even length. -/
theorem findEdges_three_crossings (intersectionMapHeight intersectionMapWidth : Int)
    (intersectionMap : FloatBuffer) (y x : Int) :
    ((CellIntersections intersectionMapHeight intersectionMapWidth intersectionMap y x).length = 3 →
      ∃ p q r, CellIntersections intersectionMapHeight intersectionMapWidth intersectionMap y x
          = [p, q, r] ∧
        CellEdges (CellIntersections intersectionMapHeight intersectionMapWidth
          intersectionMap y x) = [p, q]) ∧
    CellIntersections intersectionMapHeight intersectionMapWidth intersectionMap y x =
      SidePoints (fun t => decide (0 ≤ t)) (fun t => decide (0 < t ∧ t < 1))
        intersectionMapHeight intersectionMapWidth intersectionMap y x ∧
    (FindEdges intersectionMapHeight intersectionMapWidth intersectionMap).2 =
      (List.range intersectionMapHeight.toNat).flatMap (fun y =>
        (List.range intersectionMapWidth.toNat).flatMap (fun x =>
          CellEdges (CellIntersections intersectionMapHeight intersectionMapWidth
            intersectionMap (y : Int) (x : Int)))) ∧
    (FindEdges intersectionMapHeight intersectionMapWidth intersectionMap).2.length % 2 = 0 := by
  refine ⟨?_, cellIntersections_eq _ _ _ _ _, findEdges_eq _ _ _, findEdges_length_even _ _ _⟩
  intro h
  match hp : CellIntersections intersectionMapHeight intersectionMapWidth intersectionMap y x,
    h with
  | [p, q, r], _ => exact ⟨p, q, r, rfl, cellEdges_triple p q r⟩

theorem findEdges_three_crossings_witness :
    CellIntersections 2 2 threeSidedMap 0 0 = [⟨1 / 2, 0⟩, ⟨1 / 2, 1⟩, ⟨0, 1 / 2⟩] ∧
      ∃ p q r, CellIntersections 2 2 threeSidedMap 0 0 = [p, q, r] ∧
        CellEdges (CellIntersections 2 2 threeSidedMap 0 0) = [p, q] :=
  ⟨by decide!, (findEdges_three_crossings 2 2 threeSidedMap 0 0).1 (by decide!)⟩

/-! ### The samples that the bilinear sampler reads -/

/-- The value of `ComputePixelValue` is the rounded interpolation of the four samples at the
columns `left`, `right` and the rows `top`, `bottom`. -/
theorem computePixelValue_eq_samples (pos : FVector2DFloatType) (width height : Int)
    (buffer : PixelBuffer) (pixelWidth channelOffset : Int) :
    ComputePixelValue pos width height buffer pixelWidth channelOffset =
      toUInt8 (FMath.RoundToInt
        ((((Sample width buffer pixelWidth channelOffset (SampleLeft pos width)
              (SampleTop pos width)).val : ℚ) *
            (1 - ((ClampedPos pos width).X - (SampleLeft pos width : ℚ))) +
          ((Sample width buffer pixelWidth channelOffset (SampleRight pos width)
              (SampleTop pos width)).val : ℚ) *
            ((ClampedPos pos width).X - (SampleLeft pos width : ℚ))) *
          (1 - ((ClampedPos pos width).Y - (SampleTop pos width : ℚ))) +
        (((Sample width buffer pixelWidth channelOffset (SampleLeft pos width)
              (SampleBottom pos width height)).val : ℚ) *
            (1 - ((ClampedPos pos width).X - (SampleLeft pos width : ℚ))) +
          ((Sample width buffer pixelWidth channelOffset (SampleRight pos width)
              (SampleBottom pos width height)).val : ℚ) *
            ((ClampedPos pos width).X - (SampleLeft pos width : ℚ))) *
          ((ClampedPos pos width).Y - (SampleTop pos width : ℚ)))) := rfl

theorem clamp_range (x : ℚ) (width : Int) (hw : 1 ≤ width) :
    0 ≤ FMath.Clamp x 0 ((width : ℚ) - 1) ∧ FMath.Clamp x 0 ((width : ℚ) - 1) ≤ (width : ℚ) - 1 := by
  have h : (0 : ℚ) ≤ (width : ℚ) - 1 := by
    have : ((1 : Int) : ℚ) ≤ (width : ℚ) := by exact_mod_cast hw
    push_cast at this
    linarith
  unfold FMath.Clamp
  exact ⟨le_max_right _ _, max_le (min_le_right _ _) h⟩

/-- The columns `left` and `right` are columns of the buffer. -/
theorem sampleLeft_range (pos : FVector2DFloatType) (width : Int) (hw : 1 ≤ width) :
    (0 ≤ SampleLeft pos width ∧ SampleLeft pos width < width) ∧
      (0 ≤ SampleRight pos width ∧ SampleRight pos width < width) := by
  have hc := clamp_range pos.X width hw
  have h0 : 0 ≤ SampleLeft pos width := by
    unfold SampleLeft FMath.FloorToInt ClampedPos
    exact Int.floor_nonneg.mpr hc.1
  have h1 : SampleLeft pos width < width := by
    unfold SampleLeft FMath.FloorToInt ClampedPos
    rw [Int.floor_lt]
    linarith [hc.2]
  refine ⟨⟨h0, h1⟩, ?_, ?_⟩
  · unfold SampleRight
    exact le_min (by omega) (by omega)
  · unfold SampleRight
    exact lt_of_le_of_lt (min_le_right _ _) (by omega)

/-- The rows `top` and `bottom` are rows of the buffer when the position is below the last
row plus one. -/
theorem sampleTop_range (pos : FVector2DFloatType) (width height : Int) (hw : 1 ≤ width)
    (hh : 1 ≤ height) (hY : pos.Y < (height : ℚ)) :
    (0 ≤ SampleTop pos width ∧ SampleTop pos width < height) ∧
      (0 ≤ SampleBottom pos width height ∧ SampleBottom pos width height < height) := by
  have hc := clamp_range pos.Y width hw
  have hhq : (0 : ℚ) < (height : ℚ) := by exact_mod_cast (by omega : 0 < height)
  have h0 : 0 ≤ SampleTop pos width := by
    unfold SampleTop FMath.FloorToInt ClampedPos
    exact Int.floor_nonneg.mpr hc.1
  have h1 : SampleTop pos width < height := by
    unfold SampleTop FMath.FloorToInt ClampedPos
    rw [Int.floor_lt]
    dsimp only
    unfold FMath.Clamp
    exact max_lt (lt_of_le_of_lt (min_le_left _ _) hY) hhq
  refine ⟨⟨h0, h1⟩, ?_, ?_⟩
  · unfold SampleBottom
    exact le_min (by omega) (by omega)
  · unfold SampleBottom
    exact lt_of_le_of_lt (min_le_right _ _) (by omega)

/-- The mapped point of an output pixel is above the row `sourceHeight`. -/
theorem transformPos_Y_lt (sourceWidth sourceHeight sdfWidth sdfHeight i : Int)
    (hsh : 1 ≤ sourceHeight) (hdw : 1 ≤ sdfWidth) (hdh : 1 ≤ sdfHeight)
    (hi : i < sdfWidth * sdfHeight) :
    (TransformPos sdfWidth sdfHeight sourceWidth sourceHeight
      ⟨((i % sdfWidth : Int) : ℚ), ((i / sdfWidth : Int) : ℚ)⟩).Y < (sourceHeight : ℚ) := by
  have hrow : i / sdfWidth < sdfHeight :=
    Int.ediv_lt_of_lt_mul (by omega) (by rw [mul_comm]; exact hi)
  have hrowq : ((i / sdfWidth : Int) : ℚ) ≤ (sdfHeight : ℚ) - 1 := by
    have : i / sdfWidth ≤ sdfHeight - 1 := by omega
    exact_mod_cast this
  have hdq : (0 : ℚ) < (sdfHeight : ℚ) := by exact_mod_cast (by omega : 0 < sdfHeight)
  have hsq : (0 : ℚ) < (sourceHeight : ℚ) := by exact_mod_cast (by omega : 0 < sourceHeight)
  have hr : (0 : ℚ) < (sourceHeight : ℚ) / (sdfHeight : ℚ) := div_pos hsq hdq
  have hmul : (sdfHeight : ℚ) * ((sourceHeight : ℚ) / (sdfHeight : ℚ)) = (sourceHeight : ℚ) := by
    field_simp
  simp only [TransformPos, FVector2DFloatType.subScalar, FVector2DFloatType.divScalar,
    FVector2DFloatType.sub, FVector2DFloatType.mul, FVector2DFloatType.add]
  have hstep : (((i / sdfWidth : Int) : ℚ) - ((sdfHeight : ℚ) - 1) / 2) *
      ((sourceHeight : ℚ) / (sdfHeight : ℚ)) ≤
      (((sdfHeight : ℚ) - 1) - ((sdfHeight : ℚ) - 1) / 2) *
      ((sourceHeight : ℚ) / (sdfHeight : ℚ)) :=
    mul_le_mul_of_nonneg_right (by linarith) (le_of_lt hr)
  nlinarith

/-- C22: for source and output sizes of at least one pixel each way and an output pixel index
`i` in `[0, sdfWidth * sdfHeight)`, the columns `left`, `right` and the rows `top`, `bottom`
of the four samples that `ComputePixelValue` reads at the mapped point of the pixel are
columns and rows of the source buffer, although the row is clamped with the width: the mapped
point itself is above the row `sourceHeight`. -/
theorem computePixelValue_reads_inside (sourceWidth sourceHeight sdfWidth sdfHeight i : Int)
    (p : FVector2DFloatType)
    (hsw : 1 ≤ sourceWidth) (hsh : 1 ≤ sourceHeight) (hdw : 1 ≤ sdfWidth) (hdh : 1 ≤ sdfHeight)
    (_hi0 : 0 ≤ i) (hi : i < sdfWidth * sdfHeight)
    (hp : p = TransformPos sdfWidth sdfHeight sourceWidth sourceHeight
      ⟨((i % sdfWidth : Int) : ℚ), ((i / sdfWidth : Int) : ℚ)⟩) :
    (0 ≤ SampleLeft p sourceWidth ∧ SampleLeft p sourceWidth < sourceWidth) ∧
    (0 ≤ SampleRight p sourceWidth ∧ SampleRight p sourceWidth < sourceWidth) ∧
    (0 ≤ SampleTop p sourceWidth ∧ SampleTop p sourceWidth < sourceHeight) ∧
    (0 ≤ SampleBottom p sourceWidth sourceHeight ∧
      SampleBottom p sourceWidth sourceHeight < sourceHeight) ∧
    (∀ (buffer : PixelBuffer) (pixelWidth channelOffset : Int),
      ComputePixelValue p sourceWidth sourceHeight buffer pixelWidth channelOffset =
        toUInt8 (FMath.RoundToInt
          ((((Sample sourceWidth buffer pixelWidth channelOffset (SampleLeft p sourceWidth)
                (SampleTop p sourceWidth)).val : ℚ) *
              (1 - ((ClampedPos p sourceWidth).X - (SampleLeft p sourceWidth : ℚ))) +
            ((Sample sourceWidth buffer pixelWidth channelOffset (SampleRight p sourceWidth)
                (SampleTop p sourceWidth)).val : ℚ) *
              ((ClampedPos p sourceWidth).X - (SampleLeft p sourceWidth : ℚ))) *
            (1 - ((ClampedPos p sourceWidth).Y - (SampleTop p sourceWidth : ℚ))) +
          (((Sample sourceWidth buffer pixelWidth channelOffset (SampleLeft p sourceWidth)
                (SampleBottom p sourceWidth sourceHeight)).val : ℚ) *
              (1 - ((ClampedPos p sourceWidth).X - (SampleLeft p sourceWidth : ℚ))) +
            ((Sample sourceWidth buffer pixelWidth channelOffset (SampleRight p sourceWidth)
                (SampleBottom p sourceWidth sourceHeight)).val : ℚ) *
              ((ClampedPos p sourceWidth).X - (SampleLeft p sourceWidth : ℚ))) *
            ((ClampedPos p sourceWidth).Y - (SampleTop p sourceWidth : ℚ))))) := by
  have hX := sampleLeft_range p sourceWidth hsw
  have hlt : p.Y < (sourceHeight : ℚ) := by
    rw [hp]
    exact transformPos_Y_lt sourceWidth sourceHeight sdfWidth sdfHeight i hsh hdw hdh hi
  have hY := sampleTop_range p sourceWidth sourceHeight hsw hsh hlt
  exact ⟨hX.1, hX.2, hY.1, hY.2, fun buffer pixelWidth channelOffset =>
    computePixelValue_eq_samples p sourceWidth sourceHeight buffer pixelWidth channelOffset⟩

theorem computePixelValue_reads_inside_witness :
    (0 ≤ SampleTop (TransformPos ((12 : Int) : ℚ) ((8 : Int) : ℚ) ((6 : Int) : ℚ) ((2 : Int) : ℚ)
        ⟨((95 % 12 : Int) : ℚ), ((95 / 12 : Int) : ℚ)⟩) 6 ∧
      SampleTop (TransformPos ((12 : Int) : ℚ) ((8 : Int) : ℚ) ((6 : Int) : ℚ) ((2 : Int) : ℚ)
        ⟨((95 % 12 : Int) : ℚ), ((95 / 12 : Int) : ℚ)⟩) 6 < 2) ∧
    (0 ≤ SampleBottom (TransformPos ((12 : Int) : ℚ) ((8 : Int) : ℚ) ((6 : Int) : ℚ)
        ((2 : Int) : ℚ) ⟨((95 % 12 : Int) : ℚ), ((95 / 12 : Int) : ℚ)⟩) 6 2 ∧
      SampleBottom (TransformPos ((12 : Int) : ℚ) ((8 : Int) : ℚ) ((6 : Int) : ℚ)
        ((2 : Int) : ℚ) ⟨((95 % 12 : Int) : ℚ), ((95 / 12 : Int) : ℚ)⟩) 6 2 < 2) := by
  have h := computePixelValue_reads_inside 6 2 12 8 95 _
    (by decide) (by decide) (by decide) (by decide) (by decide) (by decide) rfl
  exact ⟨h.2.2.1, h.2.2.2.1⟩

/-- At a position that is no mapped point the row `top` can be past the last row: in a buffer
of six columns and two rows the position `(0, 4)` has `top = 4`. -/
theorem sampleTop_outside : SampleTop ⟨0, 4⟩ 6 = 4 ∧ ¬ SampleTop ⟨0, 4⟩ 6 < 2 := by
  decide!

end RTMSDF
